import Mathlib

/-!
# Verification of `arlintdev/expenses` (backend)

A shallow embedding of the data model and request-handler logic of the
expense-tracking backend (`src/backend/models.py`, `src/backend/main.py`,
`src/backend/auth.py`) together with proofs about the claims of the
natural-language specification.

Conventions of the embedding:
* UUIDv6 row identifiers become natural numbers; each database state carries
  a `nextId` counter from which fresh identifiers are drawn.
* Python `float` amounts and rates become exact rationals (`ℚ`).
* Python `datetime` values become a six-component record compared
  lexicographically, exactly as CPython compares `datetime` objects.
* Database tables become lists of row records; SQLAlchemy queries become
  list traversals; `ON DELETE CASCADE` declared on a foreign key in
  `models.py` becomes the corresponding filter on the dependent table.
* Handlers that raise `HTTPException` become functions into `Except ℕ _`,
  the error carrying the HTTP status code.
-/

namespace Expenses

/-- A `datetime` value: `models.py` stores dates as full timestamps and
CPython orders `datetime` objects lexicographically by components. -/
structure DateTime where
  year : Nat
  month : Nat
  day : Nat
  hour : Nat
  minute : Nat
  second : Nat
deriving DecidableEq, Repr

/-- Lexicographic strict comparison of two `DateTime`s, mirroring
CPython's `datetime.__lt__`. -/
def DateTime.ltB (a b : DateTime) : Bool :=
  if a.year ≠ b.year then a.year < b.year
  else if a.month ≠ b.month then a.month < b.month
  else if a.day ≠ b.day then a.day < b.day
  else if a.hour ≠ b.hour then a.hour < b.hour
  else if a.minute ≠ b.minute then a.minute < b.minute
  else a.second < b.second

/-- Leap-year test used by Python's `calendar.isleap`. -/
def isLeapYear (y : Nat) : Bool :=
  y % 4 == 0 && (y % 100 != 0 || y % 400 == 0)

/-- Number of days in a month, as returned by `calendar.monthrange(y, m)[1]`. -/
def daysInMonth (y m : Nat) : Nat :=
  if m = 2 then (if isLeapYear y then 29 else 28)
  else if m = 4 ∨ m = 6 ∨ m = 9 ∨ m = 11 then 30
  else 31

/-- A `RecurringExpense` row (`models.py`, class `RecurringExpense`).
`materials`/`hours` are optional columns; the tag junction rows live in a
separate table (`recurring_expense_tags`). -/
structure RecurringExpense where
  id : ℕ
  user_id : ℕ
  description : String
  recipient : String
  materials : Option String
  hours : Option ℚ
  amount : ℚ
  start_month : Nat
  start_year : Nat
  end_month : Nat
  end_year : Nat
  day_of_month : Nat
deriving DecidableEq, Repr

/-- A transient `Expense` object produced by `expand_recurring_expenses`
(`main.py:58-123`): never written to a table, only returned to the caller.
`tagIds` are the `user_tag_id`s copied from the template's junction rows. -/
structure VirtualExpense where
  user_id : ℕ
  description : String
  recipient : String
  materials : Option String
  hours : Option ℚ
  amount : ℚ
  date : DateTime
  recurring : Bool
  recurring_expense_id : ℕ
  tagIds : List ℕ
deriving DecidableEq, Repr

/-- The instance date `datetime(current_year, current_month, day)` built at
`main.py:80-85`: the day of month is capped at the month's length. -/
def instanceDate (dom y m : Nat) : DateTime :=
  ⟨y, m, min dom (daysInMonth y m), 0, 0, 0⟩

/-- One virtual expense instance (`main.py:89-102`, tag copy at 104-113). -/
def mkVirtualExpense (r : RecurringExpense) (rtagIds : List ℕ) (uid : ℕ)
    (date : DateTime) : VirtualExpense :=
  ⟨uid, r.description, r.recipient, r.materials, r.hours, r.amount,
    date, true, r.id, rtagIds⟩

/-- The `while True` loop of `expand_recurring_expenses` (`main.py:73-121`)
for a single template, starting at month `(y, m)`.  The loop breaks once
`(y, m)` passes `(end_year, end_month)` (`main.py:75-78`); otherwise it
emits the instance when its date is strictly before `today`
(`main.py:88`) and moves to the next month (`main.py:118-121`).
`fuel` bounds the recursion; the wrapper below supplies more fuel than the
loop can ever consume, so the guard alone decides termination. -/
def expandFrom (r : RecurringExpense) (rtagIds : List ℕ) (uid : ℕ)
    (today : DateTime) : Nat → Nat → Nat → List VirtualExpense
  | 0, _, _ => []
  | fuel + 1, y, m =>
    if r.end_year < y ∨ (y = r.end_year ∧ r.end_month < m) then []
    else
      let date := instanceDate r.day_of_month y m
      let rest :=
        if 12 < m + 1 then expandFrom r rtagIds uid today fuel (y + 1) 1
        else expandFrom r rtagIds uid today fuel y (m + 1)
      if date.ltB today then mkVirtualExpense r rtagIds uid date :: rest
      else rest

/-- Fuel that strictly exceeds the number of loop iterations for any start
month at or after `(0, 0)`: the loop runs at most
`12 * end_year + end_month + 1` times. -/
def expandFuel (r : RecurringExpense) : Nat :=
  12 * r.end_year + r.end_month + 2

/-- `expand_recurring_expenses` (`main.py:58-123`) restricted to a single
template with its loaded tag ids: iterate months from
`(start_year, start_month)`. -/
def expandOne (r : RecurringExpense) (rtagIds : List ℕ) (uid : ℕ)
    (today : DateTime) : List VirtualExpense :=
  expandFrom r rtagIds uid today (expandFuel r) r.start_year r.start_month

/-- `expand_recurring_expenses` over a list of templates paired with their
loaded tag ids (`recurring.recurring_expense_tags`), concatenated in order
(`main.py:68, 115, 123`). -/
def expandRecurringExpenses (rs : List (RecurringExpense × List ℕ))
    (uid : ℕ) (today : DateTime) : List VirtualExpense :=
  rs.flatMap fun p => expandOne p.1 p.2 uid today

/-- Does a virtual expense fall in calendar month `(y, m)`? -/
def monthEq (y m : Nat) (e : VirtualExpense) : Bool :=
  e.date.year == y && e.date.month == m

/-- Concrete template used to exercise C1: monthly 100 from 2024-01 through
2024-03 on day 31 (overflowing February's length). -/
def c1Template : RecurringExpense :=
  ⟨1, 7, "rent", "landlord", none, none, 100, 1, 2024, 3, 2024, 31⟩

/-- Concrete clock for the C1 witness: 2024-03-15 10:00:00. -/
def c1Today : DateTime := ⟨2024, 3, 15, 10, 0, 0⟩

/-- Concrete template for the C1 counterexample: a single month,
2026-10, with day of month 12. -/
def c1CounterTemplate : RecurringExpense :=
  ⟨1, 7, "rent", "landlord", none, none, 100, 10, 2026, 10, 2026, 12⟩

/-- Concrete clock for the C1 counterexample: 2026-10-12 12:00:00, i.e.
noon of the template's own instance day. -/
def c1CounterToday : DateTime := ⟨2026, 10, 12, 12, 0, 0⟩

/-- `date + timedelta(days=1)` for a `datetime`: used by the analytics
date filters (`main.py:654, 675`).  Rolls over month and year ends using
the calendar month lengths. -/
def DateTime.addOneDay (d : DateTime) : DateTime :=
  if d.day < daysInMonth d.year d.month then
    ⟨d.year, d.month, d.day + 1, d.hour, d.minute, d.second⟩
  else if d.month < 12 then
    ⟨d.year, d.month + 1, 1, d.hour, d.minute, d.second⟩
  else
    ⟨d.year + 1, 1, 1, d.hour, d.minute, d.second⟩

/-- A `user_tags` row (`models.py`, class `UserTag`). -/
structure UserTag where
  id : ℕ
  user_id : ℕ
  name : String
deriving DecidableEq, Repr

/-- An `expense_tags` junction row (`models.py`, class `ExpenseTag`). -/
structure ExpenseTag where
  id : ℕ
  expense_id : ℕ
  user_tag_id : ℕ
deriving DecidableEq, Repr

/-- A `recurring_expense_tags` junction row (`models.py`, class
`RecurringExpenseTag`). -/
structure RecurringExpenseTagRow where
  id : ℕ
  recurring_expense_id : ℕ
  user_tag_id : ℕ
deriving DecidableEq, Repr

/-- A `mileage_log_tags` junction row (`models.py`, class `MileageLogTag`). -/
structure MileageLogTag where
  id : ℕ
  mileage_log_id : ℕ
  user_tag_id : ℕ
deriving DecidableEq, Repr

/-- The informational content of an expense's `description` column.  A
mirror expense's description is the f-string
`f"Mileage: {purpose} ({business_miles} mi @ ${irs_rate}/mi)"`
(`main.py:2312, 2534`); it is modelled by its three interpolated
components rather than by Python float formatting. -/
inductive Description where
  | plain (s : String)
  | mileage (purpose : String) (business_miles : ℤ) (irs_rate : ℚ)
deriving DecidableEq, Repr

/-- An `expenses` row (`models.py`, class `Expense`). -/
structure Expense where
  id : ℕ
  user_id : ℕ
  description : Description
  recipient : String
  materials : Option String
  hours : Option ℚ
  amount : ℚ
  date : DateTime
  recurring : Bool
  recurring_expense_id : Option ℕ
  linked_mileage_log_id : Option ℕ
deriving DecidableEq, Repr

/-- A `vehicles` row (`models.py`, class `Vehicle`); only the columns the
claims touch are carried. -/
structure Vehicle where
  id : ℕ
  user_id : ℕ
  last_odometer_reading : Option ℤ
  is_active : Bool
deriving DecidableEq, Repr

/-- A `mileage_logs` row (`models.py`, class `MileageLog`). -/
structure MileageLog where
  id : ℕ
  user_id : ℕ
  vehicle_id : ℕ
  date : DateTime
  purpose : String
  odometer_start : ℤ
  odometer_end : ℤ
  personal_miles : ℤ
  irs_rate : ℚ
  linked_expense_id : Option ℕ
deriving DecidableEq, Repr

/-- Computed property `MileageLog.business_miles` (`models.py:226-229`):
total miles minus personal miles. -/
def MileageLog.business_miles (l : MileageLog) : ℤ :=
  (l.odometer_end - l.odometer_start) - l.personal_miles

/-- Computed property `MileageLog.deductible_amount` (`models.py:231-234`):
business miles times the snapshotted IRS rate. -/
def MileageLog.deductible_amount (l : MileageLog) : ℚ :=
  l.business_miles * l.irs_rate

/-- An `irs_mileage_rates` row (`models.py`, class `IRSMileageRate`). -/
structure IRSMileageRate where
  id : ℕ
  year : Nat
  rate : ℚ
deriving DecidableEq, Repr

/-- The relational store: one list per table, plus the identifier source
modelling `uuid6.uuid6()` (each freshly drawn id is `nextId`, all existing
ids are below it). -/
structure DB where
  userTags : List UserTag
  expenses : List Expense
  expenseTags : List ExpenseTag
  recurringExpenses : List RecurringExpense
  recurringExpenseTags : List RecurringExpenseTagRow
  vehicles : List Vehicle
  mileageLogs : List MileageLog
  mileageLogTags : List MileageLogTag
  irsRates : List IRSMileageRate
  nextId : ℕ
deriving DecidableEq, Repr

/-- Every row id and every id-valued column of `db` is below `nextId`:
the freshness discipline of drawing row ids from a counter. -/
def DB.Fresh (db : DB) : Prop :=
  (∀ t ∈ db.userTags, t.id < db.nextId) ∧
  (∀ e ∈ db.expenses, e.id < db.nextId ∧
    (∀ l, e.linked_mileage_log_id = some l → l < db.nextId)) ∧
  (∀ et ∈ db.expenseTags, et.id < db.nextId ∧ et.expense_id < db.nextId ∧
    et.user_tag_id < db.nextId) ∧
  (∀ v ∈ db.vehicles, v.id < db.nextId) ∧
  (∀ l ∈ db.mileageLogs, l.id < db.nextId ∧
    (∀ e, l.linked_expense_id = some e → e < db.nextId)) ∧
  (∀ mt ∈ db.mileageLogTags, mt.id < db.nextId ∧
    mt.mileage_log_id < db.nextId ∧ mt.user_tag_id < db.nextId)

instance (db : DB) : Decidable db.Fresh := by
  unfold DB.Fresh
  infer_instance

/-- Row ids are unique within each of the tables the claims touch. -/
def DB.UniqueIds (db : DB) : Prop :=
  db.userTags.Pairwise (fun a b => a.id ≠ b.id) ∧
  db.expenses.Pairwise (fun a b => a.id ≠ b.id) ∧
  db.expenseTags.Pairwise (fun a b => a.id ≠ b.id) ∧
  db.vehicles.Pairwise (fun a b => a.id ≠ b.id) ∧
  db.mileageLogs.Pairwise (fun a b => a.id ≠ b.id) ∧
  db.mileageLogTags.Pairwise (fun a b => a.id ≠ b.id)

instance (db : DB) : Decidable db.UniqueIds := by
  unfold DB.UniqueIds
  infer_instance

/-- At most one `UserTag` per `(user_id, name)` pair: the invariant the
handlers' `scalar_one_or_none()` lookups rely on. -/
def DB.UniqueTagNames (db : DB) : Prop :=
  db.userTags.Pairwise (fun a b => a.user_id = b.user_id → a.name ≠ b.name)

instance (db : DB) : Decidable db.UniqueTagNames := by
  unfold DB.UniqueTagNames
  infer_instance

/-- The tag names carried by expense `eid`: the `Expense.tags` property
(`models.py:141-144`) read through the junction table. -/
def DB.expenseTagNames (db : DB) (eid : ℕ) : List String :=
  (db.expenseTags.filter (fun et => et.expense_id == eid)).filterMap
    (fun et => (db.userTags.find? (fun t => t.id == et.user_tag_id)).map
      (fun t => t.name))

/-- The `user_tag_id`s attached to expense `eid` through `expense_tags`. -/
def DB.expenseTagIds (db : DB) (eid : ℕ) : List ℕ :=
  (db.expenseTags.filter (fun et => et.expense_id == eid)).map
    (fun et => et.user_tag_id)

/-- The `user_tag_id`s attached to mileage log `lid` through
`mileage_log_tags`. -/
def DB.mileageTagIds (db : DB) (lid : ℕ) : List ℕ :=
  (db.mileageLogTags.filter (fun mt => mt.mileage_log_id == lid)).map
    (fun mt => mt.user_tag_id)

/-- `get_current_irs_rate` (`main.py:2290-2304`): the stored rate for the
year when a row exists, the constant fallback `0.67` otherwise.  (The
`year is None` default branch is not reached from `create_mileage_log`,
which always passes the year of the log's date.) -/
def getCurrentIrsRate (db : DB) (year : Nat) : ℚ :=
  match db.irsRates.find? (fun r => r.year == year) with
  | some r => r.rate
  | none => 67 / 100

/-- `delete_tag` (`main.py:1697-1733`): look up the user's tag by name
(404 when absent), bulk-delete its `ExpenseTag` junction rows
(`main.py:1719-1722`), then ORM-delete the `UserTag` row itself
(`main.py:1725`).  The `UserTag` delete does not cascade to the other two
junction tables: at flush time the ORM, following the `backref`
relationships declared without a `delete` cascade or `passive_deletes`
(`models.py:183`, `models.py:250`), nullifies the `user_tag_id` column of
every remaining `RecurringExpenseTag` and `MileageLogTag` row referencing
the tag, which violates those columns' `NOT NULL` constraints
(`models.py:178`, `models.py:247`).  The resulting `IntegrityError` is
caught by the handler's broad `except` (`main.py:1731-1733`), which rolls
the transaction back and returns HTTP 500, so nothing is deleted whenever
such a junction row exists. -/
def deleteTag (db : DB) (uid : ℕ) (name : String) : Except Nat DB :=
  match db.userTags.find? (fun t => t.user_id == uid && t.name == name) with
  | none => .error 404
  | some ut =>
      if db.recurringExpenseTags.any (fun rt => rt.user_tag_id == ut.id)
          || db.mileageLogTags.any (fun mt => mt.user_tag_id == ut.id) then
        .error 500
      else
        .ok { db with
          expenseTags := db.expenseTags.filter
            (fun et => et.user_tag_id ≠ ut.id),
          userTags := db.userTags.filter (fun t => t.id ≠ ut.id) }

/-- The body of the `merge_tags` loop (`main.py:1650-1665`) over the
snapshot of `ExpenseTag` rows that carried the source tag: each row is
retagged to the target tag, unless its expense already carries the target
tag in the current table state, in which case the row is deleted. -/
def mergeLoop (targetId : ℕ) : List ExpenseTag → List ExpenseTag →
    List ExpenseTag
  | cur, [] => cur
  | cur, et :: rest =>
      let cur' :=
        if cur.any (fun x => x.expense_id == et.expense_id &&
            x.user_tag_id == targetId) then
          cur.filter (fun x => x.id ≠ et.id)
        else
          cur.map (fun x => if x.id = et.id then
            ⟨x.id, x.expense_id, targetId⟩ else x)
      mergeLoop targetId cur' rest

/-- `merge_tags` (`main.py:1604-1694`): reject merging a tag with itself
(400), look up both tags (404 when absent), retag or deduplicate every
`ExpenseTag` row that carried the source tag, then ORM-delete the source
`UserTag` row (`main.py:1671`).  As in `deleteTag`, that delete nullifies
the `NOT NULL` `user_tag_id` column of any remaining
`RecurringExpenseTag` or `MileageLogTag` row referencing the source tag
at flush (`models.py:178,183,247,250`), so the commit raises
`IntegrityError`; the handler's broad `except` (`main.py:1692-1694`)
rolls the whole transaction back — the retagging included — and returns
HTTP 500.  A merge therefore succeeds only when the source tag is carried
by no recurring template and no mileage log, and on success those two
junction tables are untouched. -/
def mergeTags (db : DB) (uid : ℕ) (sourceTag targetTag : String) :
    Except Nat DB :=
  if sourceTag = targetTag then .error 400
  else
    match db.userTags.find?
        (fun t => t.user_id == uid && t.name == sourceTag) with
    | none => .error 404
    | some s =>
        match db.userTags.find?
            (fun t => t.user_id == uid && t.name == targetTag) with
        | none => .error 404
        | some t =>
            if db.recurringExpenseTags.any
                  (fun rt => rt.user_tag_id == s.id)
                || db.mileageLogTags.any
                  (fun mt => mt.user_tag_id == s.id) then
              .error 500
            else
              let snapshot := db.expenseTags.filter
                (fun et => et.user_tag_id == s.id)
              .ok { db with
                expenseTags := mergeLoop t.id db.expenseTags snapshot,
                userTags := db.userTags.filter (fun x => x.id ≠ s.id) }

/-- The `ExpenseCreate` request schema (`schemas.py:27-37`): `date` is
optional and defaults to the current time through the column default
(`models.py:130`); `tags` defaults to the empty list. -/
structure ExpenseCreate where
  description : String
  recipient : String
  materials : Option String
  hours : Option ℚ
  tags : List String
  amount : ℚ
  date : Option DateTime
deriving DecidableEq, Repr

/-- The tag loop of `create_expense` (`main.py:880-908`): for each entry
that is non-empty after stripping, get or create the per-user `UserTag`
and insert an `ExpenseTag` junction row; other entries are skipped. -/
def processExpenseTags (uid eid : ℕ) : DB → List String → DB
  | db, [] => db
  | db, raw :: rest =>
      if raw.trim ≠ "" then
        let name := raw.trim
        match db.userTags.find?
            (fun t => t.user_id == uid && t.name == name) with
        | some ut =>
            processExpenseTags uid eid
              { db with
                expenseTags := db.expenseTags ++ [⟨db.nextId, eid, ut.id⟩],
                nextId := db.nextId + 1 } rest
        | none =>
            let ut : UserTag := ⟨db.nextId, uid, name⟩
            processExpenseTags uid eid
              { db with
                userTags := db.userTags ++ [ut],
                expenseTags :=
                  db.expenseTags ++ [⟨db.nextId + 1, eid, ut.id⟩],
                nextId := db.nextId + 2 } rest
      else processExpenseTags uid eid db rest

/-- `create_expense` (`main.py:856-925`): insert the expense row for the
current user, then run the tag loop.  The broad `except Exception → 500`
wrapper around database failures is not modelled. -/
def createExpense (db : DB) (uid : ℕ) (inp : ExpenseCreate)
    (now : DateTime) : DB × ℕ :=
  let eid := db.nextId
  let e : Expense :=
    ⟨eid, uid, .plain inp.description, inp.recipient, inp.materials,
      inp.hours, inp.amount, inp.date.getD now, false, none, none⟩
  let db1 := { db with expenses := db.expenses ++ [e],
                       nextId := db.nextId + 1 }
  (processExpenseTags uid eid db1 inp.tags, eid)

/-- The `MileageLogCreate` request schema (`schemas.py:201-227`). -/
structure MileageLogCreate where
  vehicle_id : ℕ
  date : DateTime
  purpose : String
  odometer_start : ℤ
  odometer_end : ℤ
  personal_miles : ℤ
  tags : List String
deriving DecidableEq, Repr

/-- The `MileageLogUpdate` request schema (`schemas.py:229-236`): every
field optional, absent fields left unchanged. -/
structure MileageLogUpdate where
  vehicle_id : Option ℕ
  date : Option DateTime
  purpose : Option String
  odometer_start : Option ℤ
  odometer_end : Option ℤ
  personal_miles : Option ℤ
  tags : Option (List String)
deriving DecidableEq, Repr

/-- The tag loop shared by `create_mileage_log` (`main.py:2406-2431`) and
the tag branch of `update_mileage_log` (`main.py:2502-2523`): for each
entry non-empty after stripping, get or create the per-user `UserTag` and
insert a `MileageLogTag` junction row.  Returns the collected
`user_tag_id`s (`user_tag_ids` in the create handler; the update handler
runs the same statements and ignores the list). -/
def processMileageTags (uid lid : ℕ) : DB → List String → DB × List ℕ
  | db, [] => (db, [])
  | db, raw :: rest =>
      if raw.trim ≠ "" then
        let name := raw.trim
        match db.userTags.find?
            (fun t => t.user_id == uid && t.name == name) with
        | some ut =>
            let db1 := { db with
              mileageLogTags :=
                db.mileageLogTags ++ [⟨db.nextId, lid, ut.id⟩],
              nextId := db.nextId + 1 }
            let rec' := processMileageTags uid lid db1 rest
            (rec'.1, ut.id :: rec'.2)
        | none =>
            let ut : UserTag := ⟨db.nextId, uid, name⟩
            let db1 := { db with
              userTags := db.userTags ++ [ut],
              mileageLogTags :=
                db.mileageLogTags ++ [⟨db.nextId + 1, lid, ut.id⟩],
              nextId := db.nextId + 2 }
            let rec' := processMileageTags uid lid db1 rest
            (rec'.1, ut.id :: rec'.2)
      else processMileageTags uid lid db rest

/-- Insert one `ExpenseTag` row per given `user_tag_id` for expense `eid`:
the copy loops at `main.py:2327-2332` (create) and `main.py:2542-2547`
(update sync). -/
def addExpenseTags (eid : ℕ) : DB → List ℕ → DB
  | db, [] => db
  | db, utid :: rest =>
      addExpenseTags eid
        { db with
          expenseTags := db.expenseTags ++ [⟨db.nextId, eid, utid⟩],
          nextId := db.nextId + 1 } rest

/-- `create_linked_expense_from_mileage` (`main.py:2306-2334`): build the
mirror expense (amount = the log's deductible amount, date = the log's
date, recipient "IRS Mileage Deduction") and copy the given tag ids onto
it.  Note the expense's `linked_mileage_log_id` column is never set. -/
def createLinkedExpenseFromMileage (db : DB) (l : MileageLog)
    (userTagIds : List ℕ) : DB × ℕ :=
  let eid := db.nextId
  let e : Expense :=
    ⟨eid, l.user_id, .mileage l.purpose l.business_miles l.irs_rate,
      "IRS Mileage Deduction", none, none, l.deductible_amount, l.date,
      false, none, none⟩
  let db1 := { db with expenses := db.expenses ++ [e],
                       nextId := db.nextId + 1 }
  (addExpenseTags eid db1 userTagIds, eid)

/-- `create_mileage_log` (`main.py:2369-2450`): verify the vehicle belongs
to the user (404 otherwise), snapshot the IRS rate for the year of the
log's date, insert the log, run the tag loop, create the linked mirror
expense, point the log at it, and update the vehicle's last odometer
reading. -/
def createMileageLog (db : DB) (uid : ℕ) (inp : MileageLogCreate) :
    Except Nat (DB × ℕ) :=
  match db.vehicles.find?
      (fun v => v.id == inp.vehicle_id && v.user_id == uid) with
  | none => .error 404
  | some v =>
      let rate := getCurrentIrsRate db inp.date.year
      let lid := db.nextId
      let log : MileageLog :=
        ⟨lid, uid, inp.vehicle_id, inp.date, inp.purpose,
          inp.odometer_start, inp.odometer_end, inp.personal_miles, rate,
          none⟩
      let db1 := { db with mileageLogs := db.mileageLogs ++ [log],
                           nextId := db.nextId + 1 }
      let step2 := processMileageTags uid lid db1 inp.tags
      let step3 := createLinkedExpenseFromMileage step2.1 log step2.2
      .ok ({ step3.1 with
        mileageLogs := step3.1.mileageLogs.map (fun l =>
          if l.id = lid then { l with linked_expense_id := some step3.2 }
          else l),
        vehicles := step3.1.vehicles.map (fun w =>
          if w.id = v.id then
            { w with last_odometer_reading := some inp.odometer_end }
          else w) }, lid)

/-- The field update of `update_mileage_log` (`main.py:2493-2495`):
`setattr` for each field the client sent, tags excluded. -/
def applyMileageUpdate (l : MileageLog) (u : MileageLogUpdate) :
    MileageLog :=
  { l with
    vehicle_id := u.vehicle_id.getD l.vehicle_id,
    date := u.date.getD l.date,
    purpose := u.purpose.getD l.purpose,
    odometer_start := u.odometer_start.getD l.odometer_start,
    odometer_end := u.odometer_end.getD l.odometer_end,
    personal_miles := u.personal_miles.getD l.personal_miles }

/-- The tag-replacement branch of `update_mileage_log`
(`main.py:2498-2523`): when a tag list was sent, delete all of the log's
junction rows and run the shared tag loop; otherwise leave the state
alone. -/
def replaceMileageTags (db : DB) (uid lid : ℕ) :
    Option (List String) → DB
  | none => db
  | some tags =>
      (processMileageTags uid lid
        { db with
          mileageLogTags := db.mileageLogTags.filter
            (fun mt => mt.mileage_log_id ≠ lid) } tags).1

/-- The body of the linked-expense sync (`main.py:2533-2547`) once the
linked expense `e` (with id `eid`) has been found: set its description,
amount and date from the updated log `log1`, delete its junction rows and
copy `staleTagIds` onto it.  The loop at `main.py:2542` iterates
`log.mileage_log_tags`, the relationship collection joined-loaded with
the log at `main.py:2480-2487`; the tag branch replaced the junction rows
with a bulk `DELETE` (`main.py:2499`) and inserts constructed from raw
foreign-key values (`main.py:2519-2523`), neither of which updates that
loaded collection, so the ids copied onto the mirror expense are the
log's pre-update tag ids, not the freshly written ones. -/
def syncArm (db : DB) (staleTagIds : List ℕ) (log1 : MileageLog) (eid : ℕ)
    (e : Expense) : DB :=
  let e2 : Expense := { e with
    description := .mileage log1.purpose log1.business_miles log1.irs_rate,
    amount := log1.deductible_amount,
    date := log1.date }
  let db3 : DB := { db with
    expenses := db.expenses.map (fun x => if x.id = eid then e2 else x) }
  addExpenseTags eid
    { db3 with
      expenseTags := db3.expenseTags.filter (fun et => et.expense_id ≠ eid) }
    staleTagIds

/-- The linked-expense sync of `update_mileage_log` (`main.py:2527-2547`):
when the log records a linked expense and that expense exists, update it
through `syncArm`, copying the stale pre-update tag ids; otherwise leave
the state alone. -/
def syncLinkedExpense (db : DB) (staleTagIds : List ℕ)
    (log1 : MileageLog) : DB :=
  match log1.linked_expense_id with
  | none => db
  | some eid =>
      match db.expenses.find? (fun e => e.id == eid) with
      | none => db
      | some e => syncArm db staleTagIds log1 eid e

/-- `update_mileage_log` (`main.py:2472-2557`): look up the user's log
(404 when absent), apply the field updates, replace the log's tags when a
tag list was sent, then sync the linked mirror expense.  The tag ids the
sync copies are read from the log's tag collection as loaded at handler
entry (`main.py:2480-2487,2542`), i.e. from the pre-update state. -/
def updateMileageLog (db : DB) (uid lid : ℕ) (upd : MileageLogUpdate) :
    Except Nat DB :=
  match db.mileageLogs.find? (fun l => l.id == lid && l.user_id == uid) with
  | none => .error 404
  | some log0 =>
      let staleTagIds := db.mileageTagIds lid
      let log1 := applyMileageUpdate log0 upd
      let db1 : DB := { db with mileageLogs := db.mileageLogs.map (fun l =>
        if l.id = lid then log1 else l) }
      .ok (syncLinkedExpense (replaceMileageTags db1 uid lid upd.tags)
        staleTagIds log1)

/-- `delete_mileage_log` (`main.py:2559-2582`): look up the user's log
(404 when absent), delete the linked mirror expense first when one is
recorded (its `expense_tags` rows go with it through `ON DELETE CASCADE`,
`models.py:112`, and `mileage_logs.linked_expense_id` references to it are
nulled, `models.py:217`), then delete the log itself (its
`mileage_log_tags` rows cascade, `models.py:246`, and
`expenses.linked_mileage_log_id` references are nulled,
`models.py:133`). -/
def deleteMileageLog (db : DB) (uid lid : ℕ) : Except Nat DB :=
  match db.mileageLogs.find? (fun l => l.id == lid && l.user_id == uid) with
  | none => .error 404
  | some log =>
      let db1 : DB := match log.linked_expense_id with
        | some eid =>
            { db with
              expenses := db.expenses.filter (fun e => e.id ≠ eid),
              expenseTags := db.expenseTags.filter
                (fun et => et.expense_id ≠ eid),
              mileageLogs := db.mileageLogs.map (fun l =>
                if l.linked_expense_id = some eid then
                  { l with linked_expense_id := none } else l) }
        | none => db
      .ok { db1 with
        mileageLogs := db1.mileageLogs.filter (fun l => l.id ≠ lid),
        mileageLogTags := db1.mileageLogTags.filter
          (fun mt => mt.mileage_log_id ≠ lid),
        expenses := db1.expenses.map (fun e =>
          if e.linked_mileage_log_id = some lid then
            { e with linked_mileage_log_id := none } else e) }

/-- The `user_tag_id`s attached to recurring template `rid` through
`recurring_expense_tags` (the `joinedload` of `main.py:663-667`). -/
def DB.recurringTagIds (db : DB) (rid : ℕ) : List ℕ :=
  (db.recurringExpenseTags.filter
    (fun rt => rt.recurring_expense_id == rid)).map (fun rt => rt.user_tag_id)

/-- The `SummaryStats` response schema (`schemas.py:111-116`). -/
structure SummaryStats where
  total_amount : ℚ
  expense_count : Nat
  average_amount : ℚ
  date_from : Option DateTime
  date_to : Option DateTime
deriving DecidableEq, Repr

/-- The date filters of `get_summary_stats` (`main.py:651-654, 672-675`):
`date >= date_from` and `date < date_to + timedelta(days=1)`, each only
when given. -/
def inDateRange (dfrom dto : Option DateTime) (d : DateTime) : Bool :=
  (match dfrom with
   | none => true
   | some f => !(d.ltB f)) &&
  (match dto with
   | none => true
   | some t => d.ltB t.addOneDay)

/-- `get_summary_stats` (`main.py:629-691`): the user's stored expenses in
range, plus the expanded recurring instances in range; total, count, and
the average with a zero-count guard (`main.py:677-681`). -/
def getSummaryStats (db : DB) (uid : ℕ) (dfrom dto : Option DateTime)
    (today : DateTime) : SummaryStats :=
  let stored := (db.expenses.filter (fun e => e.user_id == uid)).filter
    (fun e => inDateRange dfrom dto e.date)
  let expanded := expandRecurringExpenses
    ((db.recurringExpenses.filter (fun r => r.user_id == uid)).map
      (fun r => (r, db.recurringTagIds r.id))) uid today
  let expandedInRange := expanded.filter
    (fun v => inDateRange dfrom dto v.date)
  let amounts := stored.map Expense.amount
    ++ expandedInRange.map VirtualExpense.amount
  let total := amounts.sum
  let count := amounts.length
  ⟨total, count, if 0 < count then total / count else 0, dfrom, dto⟩

/-- Outcome of the `id_token.verify_oauth2_token` call in
`verify_google_token` (`auth.py:79-83`), abstracting the external Google
library: it may time out (`requests.exceptions.Timeout`), fail validation
(`ValueError`), fail otherwise, or return the decoded `idinfo` claims. -/
inductive GoogleVerifyOutcome where
  | timeout
  | invalid (msg : String)
  | otherError
  | ok (iss sub email : String) (name picture : Option String)
deriving DecidableEq, Repr

/-- The identity dict returned by `verify_google_token`
(`auth.py:100-105`). -/
structure GoogleUserData where
  google_id : String
  email : String
  name : Option String
  picture : Option String
deriving DecidableEq, Repr

/-- The timeout, in seconds, configured on the requests session used for
Google token verification (`auth.py:71-72`). -/
def googleVerifyTimeoutSeconds : Nat := 10

/-- `verify_google_token` (`auth.py:53-133`) as a function of the external
call's outcome: a timeout maps to HTTP 504 (`auth.py:107-115`), a
`ValueError` — including the handler's own `Wrong issuer.` raise at
`auth.py:87-92` — to HTTP 401 (`auth.py:116-124`), any other failure to
HTTP 401 (`auth.py:125-133`), and a verified token to the caller's
identity (`auth.py:100-105`). -/
def verifyGoogleToken (outcome : GoogleVerifyOutcome) :
    Except Nat GoogleUserData :=
  match outcome with
  | .timeout => .error 504
  | .invalid _ => .error 401
  | .otherError => .error 401
  | .ok iss sub email name picture =>
      if iss ≠ "accounts.google.com" ∧ iss ≠ "https://accounts.google.com"
      then .error 401
      else .ok ⟨sub, email, name, picture⟩

/-- Outcome of one attempt of the lookup-or-create body of
`get_or_create_user` (`auth.py:155-201`), abstracting the database: it
either commits and returns the user, raises an `OperationalError` whose
message contains "database is locked", raises another `OperationalError`,
or raises some other exception. -/
inductive AttemptOutcome where
  | ok (userId : ℕ)
  | lock
  | opError
  | failure
deriving DecidableEq, Repr

/-- What a run of `get_or_create_user` did: its result (the user, or the
HTTP status raised), the seconds slept between attempts, how many attempts
ran, and whether the final failure path rolled the session back
(`auth.py:231`). -/
structure RetryResult where
  result : Except Nat ℕ
  delays : List ℚ
  attemptsUsed : Nat
  rolledBack : Bool
deriving Repr

/-- `max_retries = 3` (`auth.py:152`). -/
def maxRetries : Nat := 3

/-- `retry_delay = 0.5` (`auth.py:153`). -/
def initialRetryDelay : ℚ := 1 / 2

/-- The retry loop of `get_or_create_user` (`auth.py:155-235`), running
attempt number `attempt` with `k` attempts remaining and the current
`retry_delay`: a lock error on a non-final attempt sleeps `retry_delay`,
doubles it, rolls back and retries (`auth.py:204-214`); a lock error on
the final attempt and any other `OperationalError` raise 503
(`auth.py:215-224`); any other exception rolls back and raises 500
(`auth.py:225-235`). -/
def retryAttempts (attempts : Nat → AttemptOutcome) :
    Nat → Nat → ℚ → List ℚ → RetryResult
  | 0, attempt, _, acc => ⟨.error 503, acc, attempt, false⟩
  | k + 1, attempt, delay, acc =>
      match attempts attempt with
      | .ok u => ⟨.ok u, acc, attempt + 1, false⟩
      | .lock =>
          if 0 < k then
            retryAttempts attempts k (attempt + 1) (delay * 2)
              (acc ++ [delay])
          else ⟨.error 503, acc, attempt + 1, false⟩
      | .opError => ⟨.error 503, acc, attempt + 1, false⟩
      | .failure => ⟨.error 500, acc, attempt + 1, true⟩

/-- `get_or_create_user` (`auth.py:135-235`): run the retry loop from
attempt 0 with `max_retries` attempts available and the initial delay. -/
def getOrCreateUser (attempts : Nat → AttemptOutcome) : RetryResult :=
  retryAttempts attempts maxRetries 0 initialRetryDelay []

/-- Attempt trace for the C7 witness: the first attempt hits a database
lock, the second succeeds. -/
def c7LockOnce : Nat → AttemptOutcome :=
  fun i => if i = 0 then .lock else .ok 42

/-- Attempt trace for the C7 counterexample: the first attempt raises an
`OperationalError` that is not a lock error. -/
def c7OpError : Nat → AttemptOutcome := fun _ => .opError

theorem expandFrom_shape (r : RecurringExpense) (rtagIds : List ℕ) (uid : ℕ)
    (today : DateTime) :
    ∀ fuel y m, 1 ≤ m → m ≤ 12 →
      ∀ e ∈ expandFrom r rtagIds uid today fuel y m,
        e.date.ltB today = true ∧
        ∃ y' m', 1 ≤ m' ∧ m' ≤ 12 ∧ 12 * y + m ≤ 12 * y' + m' ∧
          12 * y' + m' ≤ 12 * r.end_year + r.end_month ∧
          e.date = instanceDate r.day_of_month y' m' := by
  intro fuel
  induction fuel with
  | zero => intro y m _ _ e he; simp [expandFrom] at he
  | succ n ih =>
    intro y m hm1 hm2 e he
    rw [expandFrom] at he
    split at he
    · simp at he
    · rename_i hguard
      have hy : y ≤ r.end_year := by
        by_contra h
        exact hguard (Or.inl (by omega))
      have hym : y = r.end_year → m ≤ r.end_month := by
        intro h
        by_contra h2
        exact hguard (Or.inr ⟨h, by omega⟩)
      have hidx : 12 * y + m ≤ 12 * r.end_year + r.end_month := by
        rcases Nat.lt_or_ge y r.end_year with h | h
        · omega
        · have := hym (by omega); omega
      simp only at he
      split at he
      · rename_i hnext
        rcases List.mem_cons.mp he with rfl | htail
        · refine ⟨by simpa [mkVirtualExpense] using hnext, y, m, hm1, hm2,
            le_refl _, hidx, rfl⟩
        · split at htail
          · rcases ih (y + 1) 1 (by omega) (by omega) e htail with
              ⟨hlt, y', m', h1, h2, h3, h4, h5⟩
            exact ⟨hlt, y', m', h1, h2, by omega, h4, h5⟩
          · rcases ih y (m + 1) (by omega) (by omega) e htail with
              ⟨hlt, y', m', h1, h2, h3, h4, h5⟩
            exact ⟨hlt, y', m', h1, h2, by omega, h4, h5⟩
      · split at he
        · rcases ih (y + 1) 1 (by omega) (by omega) e he with
            ⟨hlt, y', m', h1, h2, h3, h4, h5⟩
          exact ⟨hlt, y', m', h1, h2, by omega, h4, h5⟩
        · rcases ih y (m + 1) (by omega) (by omega) e he with
            ⟨hlt, y', m', h1, h2, h3, h4, h5⟩
          exact ⟨hlt, y', m', h1, h2, by omega, h4, h5⟩

theorem expandFrom_countP (r : RecurringExpense) (rtagIds : List ℕ) (uid : ℕ)
    (today : DateTime) (y' m' : Nat) (hm'1 : 1 ≤ m') (hm'2 : m' ≤ 12)
    (hEm : r.end_month ≤ 12)
    (hhi : 12 * y' + m' ≤ 12 * r.end_year + r.end_month) :
    ∀ fuel y m, 1 ≤ m → m ≤ 12 → 12 * y + m ≤ 12 * y' + m' →
      12 * r.end_year + r.end_month + 1 ≤ fuel + (12 * y + m) →
      (expandFrom r rtagIds uid today fuel y m).countP (monthEq y' m')
        = if (instanceDate r.day_of_month y' m').ltB today then 1 else 0 := by
  intro fuel
  induction fuel with
  | zero => intro y m hm1 hm2 hlo hfuel; omega
  | succ n ih =>
    intro y m hm1 hm2 hlo hfuel
    rw [expandFrom]
    split
    · rename_i hguard
      rcases hguard with h | ⟨h1, h2⟩ <;> omega
    · rename_i hguard
      simp only
      have main : ∀ Y M, 1 ≤ M → M ≤ 12 → 12 * Y + M = 12 * y + m + 1 →
          (if (instanceDate r.day_of_month y m).ltB today then
              mkVirtualExpense r rtagIds uid (instanceDate r.day_of_month y m)
                :: expandFrom r rtagIds uid today n Y M
            else expandFrom r rtagIds uid today n Y M).countP (monthEq y' m')
            = if (instanceDate r.day_of_month y' m').ltB today then 1
              else 0 := by
        intro Y M hM1 hM2 hYM
        by_cases heq : y = y' ∧ m = m'
        · rcases heq with ⟨rfl, rfl⟩
          have htail : (expandFrom r rtagIds uid today n Y M).countP
              (monthEq y m) = 0 := by
            rw [List.countP_eq_zero]
            intro e he
            rcases expandFrom_shape r rtagIds uid today n Y M hM1 hM2 e he
              with ⟨_, y'', m'', h1, h2, h3, _, h5⟩
            simp [monthEq, h5, instanceDate]
            omega
          split
          · rename_i hlt
            rw [List.countP_cons, htail]
            have hme : monthEq y m (mkVirtualExpense r rtagIds uid
                (instanceDate r.day_of_month y m)) = true := by
              simp [monthEq, mkVirtualExpense, instanceDate]
            rw [hme]
            simp
          · rename_i hlt
            exact htail
        · have hne : 12 * y + m < 12 * y' + m' := by omega
          have hrec := ih Y M hM1 hM2 (by omega) (by omega)
          split
          · rw [List.countP_cons, hrec]
            have hme : monthEq y' m' (mkVirtualExpense r rtagIds uid
                (instanceDate r.day_of_month y m)) = false := by
              simp [monthEq, mkVirtualExpense, instanceDate]
              omega
            rw [hme]
            simp
          · exact hrec
      by_cases hm12 : 12 < m + 1
      · rw [if_pos hm12]
        exact main (y + 1) 1 (by omega) (by omega) (by omega)
      · rw [if_neg hm12]
        exact main y (m + 1) (by omega) (by omega) (by omega)

/-- Number of `UserTag` rows of user `uid` named `n`: used to state the
get-or-create behaviour of the tag loops. -/
def DB.tagNameCount (db : DB) (uid : ℕ) (n : String) : ℕ :=
  db.userTags.countP (fun t => t.user_id == uid && t.name == n)

/-- Number of junction rows linking expense `E` to tag `utid`: used to
state the merge's deduplication guarantee. -/
def pairCount (ets : List ExpenseTag) (E utid : ℕ) : ℕ :=
  ets.countP (fun x => x.expense_id == E && x.user_tag_id == utid)

/-- A mileage log is in sync with its mirrored expense (spec §3: "a
`MileageLog` and its mirrored `Expense` must stay in sync"): the log
records a linked expense that exists, whose description, amount, date and
tag set reflect the log. -/
def DB.MirrorSync (db : DB) (l : MileageLog) : Prop :=
  ∃ eid, l.linked_expense_id = some eid ∧
    ∃ e ∈ db.expenses, e.id = eid ∧
      e.description = .mileage l.purpose l.business_miles l.irs_rate ∧
      e.amount = l.deductible_amount ∧
      e.date = l.date ∧
      db.expenseTagIds eid = db.mileageTagIds l.id

/-- The log-to-expense link is one-to-one from the expense side: no two
mileage logs record the same linked expense (the `unique=True` constraint
on `mileage_logs.linked_expense_id`, `models.py:217`). -/
def DB.LinkInjective (db : DB) : Prop :=
  ∀ l1 ∈ db.mileageLogs, ∀ l2 ∈ db.mileageLogs, ∀ e : ℕ,
    l1.linked_expense_id = some e → l2.linked_expense_id = some e → l1 = l2

/-- Concrete database holding a mileage log (id 10, tagged "travel",
id 3) with its mirror expense (id 11) in sync: the mirror carries the
same tag.  Input of the concrete stale-tag divergence trace below. -/
def c2Db : DB :=
  { userTags := [⟨3, 7, "travel"⟩, ⟨5, 7, "client"⟩],
    expenses := [⟨11, 7, .mileage "client visit" 50 (67 / 100),
      "IRS Mileage Deduction", none, none, 50 * (67 / 100),
      ⟨2026, 1, 5, 0, 0, 0⟩, false, none, none⟩],
    expenseTags := [⟨12, 11, 3⟩],
    recurringExpenses := [], recurringExpenseTags := [],
    vehicles := [⟨4, 7, some 150, true⟩],
    mileageLogs := [⟨10, 7, 4, ⟨2026, 1, 5, 0, 0, 0⟩, "client visit",
      100, 150, 0, 67 / 100, some 11⟩],
    mileageLogTags := [⟨13, 10, 3⟩], irsRates := [], nextId := 20 }

/-- Concrete update request replacing the log's tags by `["client"]` and
touching no other field. -/
def c2Upd : MileageLogUpdate :=
  { vehicle_id := none, date := none, purpose := none,
    odometer_start := none, odometer_end := none, personal_miles := none,
    tags := some ["client"] }

/-- The database produced by the concrete tag-changing update. -/
def c2DbAfter : DB :=
  (updateMileageLog c2Db 7 10 c2Upd).toOption.getD c2Db

/-- Concrete database whose tag "food" (id 3) is carried by an expense,
a recurring template and a mileage log: deleting it hits the
nullify-at-flush `IntegrityError` path and fails with 500. -/
def c5Db : DB :=
  { userTags := [⟨3, 7, "food"⟩, ⟨4, 7, "rent"⟩],
    expenses := [], expenseTags := [⟨10, 20, 3⟩, ⟨11, 20, 4⟩],
    recurringExpenses := [], recurringExpenseTags := [⟨12, 30, 3⟩],
    vehicles := [], mileageLogs := [], mileageLogTags := [⟨13, 40, 3⟩],
    irsRates := [], nextId := 50 }

/-- Concrete database like `c5Db` but whose tag "food" is carried by no
recurring template and no mileage log, so its deletion succeeds. -/
def c5DbOk : DB :=
  { userTags := [⟨3, 7, "food"⟩, ⟨4, 7, "rent"⟩],
    expenses := [], expenseTags := [⟨10, 20, 3⟩, ⟨11, 20, 4⟩],
    recurringExpenses := [], recurringExpenseTags := [],
    vehicles := [], mileageLogs := [], mileageLogTags := [],
    irsRates := [], nextId := 50 }

/-- `c5DbOk` after `deleteTag c5DbOk 7 "food"`: the tag row with id 3 and
its `ExpenseTag` junction row are gone. -/
def c5DbOk' : DB :=
  { c5DbOk with
    userTags := [⟨4, 7, "rent"⟩],
    expenseTags := [⟨11, 20, 4⟩] }

/-- Concrete database with one existing tag, used to instantiate the
expense-creation theorem. -/
def c6Db : DB :=
  { userTags := [⟨3, 7, "food"⟩], expenses := [], expenseTags := [],
    recurringExpenses := [], recurringExpenseTags := [], vehicles := [],
    mileageLogs := [], mileageLogTags := [], irsRates := [], nextId := 8 }

/-- Concrete expense-creation request: one existing tag, one new tag that
needs trimming, and one whitespace-only entry that must be skipped. -/
def c6Inp : ExpenseCreate :=
  { description := "lunch", recipient := "cafe", materials := none,
    hours := none, tags := ["food", " new ", "   "], amount := 12,
    date := none }

/-- Concrete request time for the expense-creation witness. -/
def c6Now : DateTime := ⟨2026, 10, 12, 9, 30, 0⟩

/-- The database and expense id produced by `createExpense` on the
concrete input above. -/
def c6Out : DB × ℕ := createExpense c6Db 7 c6Inp c6Now

/-- Concrete database with a source tag ("food", id 3) carried by one
expense and a target tag ("groceries", id 4), used to instantiate the
tag-merge theorem. -/
def c9Db : DB :=
  { userTags := [⟨3, 7, "food"⟩, ⟨4, 7, "groceries"⟩],
    expenses := [], expenseTags := [⟨10, 20, 3⟩],
    recurringExpenses := [], recurringExpenseTags := [], vehicles := [],
    mileageLogs := [], mileageLogTags := [], irsRates := [], nextId := 30 }

/-- `c9Db` after merging "food" into "groceries": the junction row is
retagged to id 4 and the source tag row is gone. -/
def c9Db' : DB :=
  { c9Db with
    expenseTags := [⟨10, 20, 4⟩],
    userTags := [⟨4, 7, "groceries"⟩] }

/-- Concrete database with two IRS rate rows for distinct years, used to
instantiate the rate-lookup theorem. -/
def c10Db : DB :=
  { userTags := [], expenses := [], expenseTags := [],
    recurringExpenses := [], recurringExpenseTags := [],
    vehicles := [⟨4, 7, some 100, true⟩], mileageLogs := [],
    mileageLogTags := [],
    irsRates := [⟨1, 2024, 67 / 100⟩, ⟨2, 2025, 7 / 10⟩], nextId := 6 }

theorem map_id_on {α : Type} (f : α → α) :
    ∀ l : List α, (∀ x ∈ l, f x = x) → l.map f = l := by
  intro l
  induction l with
  | nil => intro _; rfl
  | cons a t ih =>
      intro h
      simp only [List.map_cons, h a (by simp)]
      rw [ih (fun x hx => h x (by simp [hx]))]

theorem processMileageTags_frame (uid lid : ℕ) :
    ∀ (tags : List String) (db : DB),
      (processMileageTags uid lid db tags).1.expenses = db.expenses ∧
      (processMileageTags uid lid db tags).1.expenseTags = db.expenseTags ∧
      (processMileageTags uid lid db tags).1.mileageLogs = db.mileageLogs ∧
      (processMileageTags uid lid db tags).1.vehicles = db.vehicles ∧
      (processMileageTags uid lid db tags).1.irsRates = db.irsRates ∧
      (processMileageTags uid lid db tags).1.recurringExpenses
        = db.recurringExpenses ∧
      (processMileageTags uid lid db tags).1.recurringExpenseTags
        = db.recurringExpenseTags ∧
      db.nextId ≤ (processMileageTags uid lid db tags).1.nextId := by
  intro tags
  induction tags with
  | nil => intro db; simp [processMileageTags]
  | cons raw rest ih =>
      intro db
      simp only [processMileageTags]
      split
      · split
        · obtain ⟨h1, h2, h3, h4, h5, h6, h7, h8⟩ := ih _
          refine ⟨by simpa using h1, by simpa using h2, by simpa using h3,
            by simpa using h4, by simpa using h5, by simpa using h6,
            by simpa using h7, ?_⟩
          exact le_trans (Nat.le_add_right db.nextId 1) h8
        · obtain ⟨h1, h2, h3, h4, h5, h6, h7, h8⟩ := ih _
          refine ⟨by simpa using h1, by simpa using h2, by simpa using h3,
            by simpa using h4, by simpa using h5, by simpa using h6,
            by simpa using h7, ?_⟩
          exact le_trans (Nat.le_add_right db.nextId 2) h8
      · exact ih db

theorem processMileageTags_tagIds (uid lid : ℕ) :
    ∀ (tags : List String) (db : DB),
      (processMileageTags uid lid db tags).1.mileageTagIds lid
        = db.mileageTagIds lid ++ (processMileageTags uid lid db tags).2 := by
  intro tags
  induction tags with
  | nil => intro db; simp [processMileageTags]
  | cons raw rest ih =>
      intro db
      simp only [processMileageTags]
      split
      · split
        · rw [ih _]
          simp [DB.mileageTagIds, List.filter_append]
        · rw [ih _]
          simp [DB.mileageTagIds, List.filter_append]
      · exact ih db

theorem addExpenseTags_frame (eid : ℕ) :
    ∀ (utids : List ℕ) (db : DB),
      (addExpenseTags eid db utids).expenses = db.expenses ∧
      (addExpenseTags eid db utids).mileageLogs = db.mileageLogs ∧
      (addExpenseTags eid db utids).mileageLogTags = db.mileageLogTags ∧
      (addExpenseTags eid db utids).userTags = db.userTags ∧
      (addExpenseTags eid db utids).vehicles = db.vehicles ∧
      (addExpenseTags eid db utids).irsRates = db.irsRates ∧
      db.nextId ≤ (addExpenseTags eid db utids).nextId := by
  intro utids
  induction utids with
  | nil => intro db; simp [addExpenseTags]
  | cons utid rest ih =>
      intro db
      simp only [addExpenseTags]
      obtain ⟨h1, h2, h3, h4, h5, h6, h7⟩ := ih _
      refine ⟨by simpa using h1, by simpa using h2, by simpa using h3,
        by simpa using h4, by simpa using h5, by simpa using h6, ?_⟩
      exact le_trans (Nat.le_add_right db.nextId 1) h7

theorem addExpenseTags_tagIds (eid : ℕ) :
    ∀ (utids : List ℕ) (db : DB),
      (addExpenseTags eid db utids).expenseTagIds eid
        = db.expenseTagIds eid ++ utids := by
  intro utids
  induction utids with
  | nil => intro db; simp [addExpenseTags]
  | cons utid rest ih =>
      intro db
      simp only [addExpenseTags]
      rw [ih _]
      simp [DB.expenseTagIds, List.filter_append]

theorem applyMileageUpdate_id (l : MileageLog) (u : MileageLogUpdate) :
    (applyMileageUpdate l u).id = l.id := rfl

theorem applyMileageUpdate_link (l : MileageLog) (u : MileageLogUpdate) :
    (applyMileageUpdate l u).linked_expense_id = l.linked_expense_id := rfl

theorem expenseTagIds_congr (d1 d2 : DB) (h : d1.expenseTags = d2.expenseTags)
    (eid : ℕ) : d1.expenseTagIds eid = d2.expenseTagIds eid := by
  unfold DB.expenseTagIds
  rw [h]

theorem mileageTagIds_congr (d1 d2 : DB)
    (h : d1.mileageLogTags = d2.mileageLogTags) (lid : ℕ) :
    d1.mileageTagIds lid = d2.mileageTagIds lid := by
  unfold DB.mileageTagIds
  rw [h]

theorem replaceMileageTags_frame (db : DB) (uid lid : ℕ)
    (tags : Option (List String)) :
    (replaceMileageTags db uid lid tags).mileageLogs = db.mileageLogs ∧
    (replaceMileageTags db uid lid tags).expenses = db.expenses ∧
    (replaceMileageTags db uid lid tags).expenseTags = db.expenseTags := by
  cases tags with
  | none => exact ⟨rfl, rfl, rfl⟩
  | some ts =>
      obtain ⟨p1, p2, p3, _, _, _, _, _⟩ :=
        processMileageTags_frame uid lid ts
          { db with
            mileageLogTags := db.mileageLogTags.filter
              (fun mt => mt.mileage_log_id ≠ lid) }
      exact ⟨p3, p1, p2⟩

theorem createMileageLog_spec (db : DB) (uid : ℕ) (inp : MileageLogCreate)
    (db' : DB) (lid : ℕ) (hfresh : db.Fresh)
    (h : createMileageLog db uid inp = .ok (db', lid)) :
    lid = db.nextId ∧
    ∃ eid, lid < eid ∧
      db'.mileageLogs = db.mileageLogs ++
        [⟨lid, uid, inp.vehicle_id, inp.date, inp.purpose,
          inp.odometer_start, inp.odometer_end, inp.personal_miles,
          getCurrentIrsRate db inp.date.year, some eid⟩] ∧
      (∃ e ∈ db'.expenses, e.id = eid ∧
        e.description = .mileage inp.purpose
          ((inp.odometer_end - inp.odometer_start) - inp.personal_miles)
          (getCurrentIrsRate db inp.date.year) ∧
        e.amount =
          (((inp.odometer_end - inp.odometer_start) - inp.personal_miles : ℤ)
            : ℚ) * getCurrentIrsRate db inp.date.year ∧
        e.date = inp.date) ∧
      db'.expenseTagIds eid = db'.mileageTagIds lid := by
  obtain ⟨hfU, hfE, hfET, hfV, hfML, hfMLT⟩ := hfresh
  unfold createMileageLog at h
  cases hv : db.vehicles.find?
      (fun v => v.id == inp.vehicle_id && v.user_id == uid) with
  | none => rw [hv] at h; exact absurd h (by simp)
  | some v =>
      rw [hv] at h
      simp only [Except.ok.injEq, Prod.mk.injEq] at h
      obtain ⟨hdb, hlid⟩ := h
      subst hlid
      set rate := getCurrentIrsRate db inp.date.year with hrate
      set log0 : MileageLog :=
        ⟨db.nextId, uid, inp.vehicle_id, inp.date, inp.purpose,
          inp.odometer_start, inp.odometer_end, inp.personal_miles, rate,
          none⟩ with hlog0
      set db1 : DB := { db with mileageLogs := db.mileageLogs ++ [log0],
                                nextId := db.nextId + 1 } with hdb1
      set step2 := processMileageTags uid db.nextId db1 inp.tags with hstep2
      obtain ⟨p1, p2, p3, p4, p5, p6, p7, p8⟩ :=
        processMileageTags_frame uid db.nextId inp.tags db1
      rw [← hstep2] at p1 p2 p3 p4 p5 p6 p7 p8
      set eid := step2.1.nextId with heid
      have heidgt : db.nextId < eid :=
        Nat.lt_of_lt_of_le
          (show db.nextId < db1.nextId from Nat.lt_succ_self db.nextId) p8
      set mirror : Expense :=
        ⟨eid, log0.user_id,
          .mileage log0.purpose log0.business_miles log0.irs_rate,
          "IRS Mileage Deduction", none, none, log0.deductible_amount,
          log0.date, false, none, none⟩ with hmirror
      set db2 : DB := { step2.1 with
        expenses := step2.1.expenses ++ [mirror],
        nextId := step2.1.nextId + 1 } with hdb2
      set db3 := addExpenseTags eid db2 step2.2 with hdb3
      obtain ⟨a1, a2, a3, a4, a5, a6, a7⟩ :=
        addExpenseTags_frame eid step2.2 db2
      rw [← hdb3] at a1 a2 a3 a4 a5 a6 a7
      have hdb'' : db' = { db3 with
          mileageLogs := db3.mileageLogs.map (fun l =>
            if l.id = db.nextId then { l with linked_expense_id := some eid }
            else l),
          vehicles := db3.vehicles.map (fun w =>
            if w.id = v.id then
              { w with last_odometer_reading := some inp.odometer_end }
            else w) } := by
        rw [← hdb]
        rfl
      have hml3 : db3.mileageLogs = db.mileageLogs ++ [log0] := by
        rw [a2]
        exact p3
      have hex3 : db3.expenses = db.expenses ++ [mirror] := by
        rw [a1]
        show step2.1.expenses ++ [mirror] = _
        rw [p1]
      refine ⟨rfl, eid, heidgt, ?_, ?_, ?_⟩
      · rw [hdb'']
        show db3.mileageLogs.map _ = _
        rw [hml3, List.map_append]
        rw [map_id_on _ db.mileageLogs (fun l hl => by
          simp only [if_neg (Nat.ne_of_lt (hfML l hl).1)])]
        have hsingle : List.map (fun l =>
            if l.id = db.nextId then { l with linked_expense_id := some eid }
            else l) [log0]
            = [{ log0 with linked_expense_id := some eid }] := by
          simp only [List.map_cons, List.map_nil]
          congr 1
        rw [hsingle]
      · rw [hdb'']
        show ∃ e ∈ db3.expenses, _
        rw [hex3]
        refine ⟨mirror, by simp, rfl, rfl, rfl, rfl⟩
      · have hets : db'.expenseTags = db3.expenseTags := by rw [hdb'']
        have hmlts : db'.mileageLogTags = db3.mileageLogTags := by rw [hdb'']
        have h1 : db'.expenseTagIds eid = step2.2 := by
          unfold DB.expenseTagIds
          rw [hets]
          have := addExpenseTags_tagIds eid step2.2 db2
          rw [← hdb3] at this
          unfold DB.expenseTagIds at this
          rw [this]
          have hfil : db2.expenseTags.filter
              (fun et => et.expense_id == eid) = [] := by
            rw [List.filter_eq_nil_iff]
            intro et het
            have het' : et ∈ db.expenseTags := by
              have : db2.expenseTags = db.expenseTags := by
                show step2.1.expenseTags = _
                rw [p2]
              rw [this] at het
              exact het
            simp only [beq_iff_eq]
            exact Nat.ne_of_lt (Nat.lt_trans (hfET et het').2.1 heidgt)
          rw [hfil]
          rfl
        have h2 : db'.mileageTagIds db.nextId = step2.2 := by
          unfold DB.mileageTagIds
          rw [hmlts, a3]
          have := processMileageTags_tagIds uid db.nextId inp.tags db1
          rw [← hstep2] at this
          unfold DB.mileageTagIds at this
          have hb : db2.mileageLogTags = step2.1.mileageLogTags := rfl
          rw [hb, this]
          have hfil : db1.mileageLogTags.filter
              (fun mt => mt.mileage_log_id == db.nextId) = [] := by
            rw [List.filter_eq_nil_iff]
            intro mt hmt
            have hmt' : mt ∈ db.mileageLogTags := hmt
            simp only [beq_iff_eq]
            exact Nat.ne_of_lt (hfMLT mt hmt').2.1
          rw [hfil]
          rfl
        rw [h1, h2]

/-- **C3**.  For every `MileageLog`, `business_miles` is
`(odometer_end - odometer_start) - personal_miles` and
`deductible_amount` is `business_miles * irs_rate`; and on creation the
log's `irs_rate` is the rate looked up for the year of the log's date, so
the created log's derived values are computed from the creation inputs
and that snapshotted rate. -/
theorem mileage_derived_properties :
    (∀ l : MileageLog,
      l.business_miles = (l.odometer_end - l.odometer_start)
        - l.personal_miles ∧
      l.deductible_amount = (l.business_miles : ℚ) * l.irs_rate) ∧
    (∀ (db : DB) (uid : ℕ) (inp : MileageLogCreate) (db' : DB) (lid : ℕ),
      db.Fresh → createMileageLog db uid inp = .ok (db', lid) →
      ∃ l ∈ db'.mileageLogs, l.id = lid ∧
        l.irs_rate = getCurrentIrsRate db inp.date.year ∧
        l.business_miles = (inp.odometer_end - inp.odometer_start)
          - inp.personal_miles ∧
        l.deductible_amount =
          (((inp.odometer_end - inp.odometer_start) - inp.personal_miles : ℤ)
            : ℚ) * getCurrentIrsRate db inp.date.year) := by
  refine ⟨fun l => ⟨rfl, rfl⟩, ?_⟩
  intro db uid inp db' lid hfresh h
  obtain ⟨hlid, eid, hgt, hml, _, _⟩ :=
    createMileageLog_spec db uid inp db' lid hfresh h
  exact ⟨⟨lid, uid, inp.vehicle_id, inp.date, inp.purpose,
    inp.odometer_start, inp.odometer_end, inp.personal_miles,
    getCurrentIrsRate db inp.date.year, some eid⟩,
    by rw [hml]; simp, rfl, rfl, rfl, rfl⟩

/-- **C10**.  `get_current_irs_rate` is total: it returns the stored rate
when a row for the year exists and the constant fallback `0.67`
otherwise; and `create_mileage_log` snapshots onto the log the rate looked
up for the year of the log's date. -/
theorem irs_rate_lookup_total (db : DB) (year : Nat)
    (huniq : db.irsRates.Pairwise (fun a b => a.year ≠ b.year)) :
    ((∀ r ∈ db.irsRates, r.year ≠ year) →
      getCurrentIrsRate db year = 67 / 100) ∧
    (∀ r ∈ db.irsRates, r.year = year →
      getCurrentIrsRate db year = r.rate) ∧
    (∀ (uid : ℕ) (inp : MileageLogCreate) (db' : DB) (lid : ℕ),
      db.Fresh → createMileageLog db uid inp = .ok (db', lid) →
      ∃ l ∈ db'.mileageLogs, l.id = lid ∧
        l.irs_rate = getCurrentIrsRate db inp.date.year) := by
  refine ⟨?_, ?_, ?_⟩
  · intro hnone
    unfold getCurrentIrsRate
    rw [List.find?_eq_none.mpr (fun r hr => by
      simpa using hnone r hr)]
  · intro r hr hyear
    unfold getCurrentIrsRate
    cases hf : db.irsRates.find? (fun x => x.year == year) with
    | none =>
        rw [List.find?_eq_none] at hf
        exact absurd (by simp [hyear]) (hf r hr)
    | some a =>
        have ha : a.year = year := by simpa using List.find?_some hf
        have hamem : a ∈ db.irsRates := List.mem_of_find?_eq_some hf
        by_cases hae : a = r
        · rw [hae]
        · have hr2 : a.year ≠ r.year :=
            List.Pairwise.forall (fun _ _ hxy => Ne.symm hxy) huniq
              hamem hr hae
          exact absurd (ha.trans hyear.symm) hr2
  · intro uid inp db' lid hfresh h
    obtain ⟨hlid, eid, hgt, hml, _, _⟩ :=
      createMileageLog_spec db uid inp db' lid hfresh h
    exact ⟨⟨lid, uid, inp.vehicle_id, inp.date, inp.purpose,
      inp.odometer_start, inp.odometer_end, inp.personal_miles,
      getCurrentIrsRate db inp.date.year, some eid⟩,
      by rw [hml]; simp, rfl, rfl⟩

/-- **C5**, amended.  After a successful tag delete, the `UserTag` row is
gone and no junction row referencing it remains in `expense_tags`,
`recurring_expense_tags` or `mileage_log_tags`; but the delete succeeds
only when the tag is carried by no recurring template and no mileage log:
when a `RecurringExpenseTag` or `MileageLogTag` row references the tag,
the ORM delete nullifies a `NOT NULL` foreign key at flush and the
handler fails with HTTP 500, deleting nothing. -/
theorem delete_tag_removes_junctions (db : DB) (uid : ℕ) (name : String) :
    (∀ db', deleteTag db uid name = .ok db' →
      ∃ ut ∈ db.userTags, ut.user_id = uid ∧ ut.name = name ∧
        (∀ t ∈ db'.userTags, t.id ≠ ut.id) ∧
        (∀ et ∈ db'.expenseTags, et.user_tag_id ≠ ut.id) ∧
        (∀ rt ∈ db'.recurringExpenseTags, rt.user_tag_id ≠ ut.id) ∧
        (∀ mt ∈ db'.mileageLogTags, mt.user_tag_id ≠ ut.id) ∧
        (∀ eid, ut.id ∉ db'.expenseTagIds eid) ∧
        (∀ rid, ut.id ∉ db'.recurringTagIds rid) ∧
        (∀ lid, ut.id ∉ db'.mileageTagIds lid)) ∧
    (∀ ut, db.userTags.find?
        (fun t => t.user_id == uid && t.name == name) = some ut →
      ((∃ rt ∈ db.recurringExpenseTags, rt.user_tag_id = ut.id) ∨
        (∃ mt ∈ db.mileageLogTags, mt.user_tag_id = ut.id)) →
      deleteTag db uid name = .error 500) := by
  constructor
  · intro db' h
    unfold deleteTag at h
    cases hf : db.userTags.find?
        (fun t => t.user_id == uid && t.name == name) with
    | none => rw [hf] at h; exact absurd h (by simp)
    | some ut =>
        simp only [hf] at h
        by_cases hc : (db.recurringExpenseTags.any
              (fun rt => rt.user_tag_id == ut.id)
            || db.mileageLogTags.any
              (fun mt => mt.user_tag_id == ut.id)) = true
        · rw [if_pos hc] at h
          exact absurd h (by simp)
        · rw [if_neg hc] at h
          simp only [Except.ok.injEq] at h
          have hcf : (db.recurringExpenseTags.any
                (fun rt => rt.user_tag_id == ut.id)
              || db.mileageLogTags.any
                (fun mt => mt.user_tag_id == ut.id)) = false :=
            Bool.eq_false_iff.mpr hc
          simp only [Bool.or_eq_false_iff] at hcf
          have hmem := List.mem_of_find?_eq_some hf
          have hprops := List.find?_some hf
          simp only [Bool.and_eq_true, beq_iff_eq] at hprops
          have hUT : ∀ t ∈ db'.userTags, t.id ≠ ut.id := by
            intro t ht
            rw [← h] at ht
            have := (List.mem_filter.mp ht).2
            simpa using this
          have hET : ∀ et ∈ db'.expenseTags, et.user_tag_id ≠ ut.id := by
            intro et het
            rw [← h] at het
            have := (List.mem_filter.mp het).2
            simpa using this
          have hRT : ∀ rt ∈ db'.recurringExpenseTags,
              rt.user_tag_id ≠ ut.id := by
            intro rt hrt
            rw [← h] at hrt
            have hrt' : rt ∈ db.recurringExpenseTags := hrt
            have := List.any_eq_false.mp hcf.1 rt hrt'
            simpa using this
          have hMT : ∀ mt ∈ db'.mileageLogTags,
              mt.user_tag_id ≠ ut.id := by
            intro mt hmt
            rw [← h] at hmt
            have hmt' : mt ∈ db.mileageLogTags := hmt
            have := List.any_eq_false.mp hcf.2 mt hmt'
            simpa using this
          refine ⟨ut, hmem, hprops.1, hprops.2, hUT, hET, hRT, hMT,
            ?_, ?_, ?_⟩
          · intro eid hin
            unfold DB.expenseTagIds at hin
            obtain ⟨et, hetf, hetid⟩ := List.mem_map.mp hin
            exact hET et (List.mem_of_mem_filter hetf) hetid
          · intro rid hin
            unfold DB.recurringTagIds at hin
            obtain ⟨rt, hrtf, hrtid⟩ := List.mem_map.mp hin
            exact hRT rt (List.mem_of_mem_filter hrtf) hrtid
          · intro lid hin
            unfold DB.mileageTagIds at hin
            obtain ⟨mt, hmtf, hmtid⟩ := List.mem_map.mp hin
            exact hMT mt (List.mem_of_mem_filter hmtf) hmtid
  · intro ut hf hcarry
    have hc : (db.recurringExpenseTags.any
          (fun rt => rt.user_tag_id == ut.id)
        || db.mileageLogTags.any
          (fun mt => mt.user_tag_id == ut.id)) = true := by
      rcases hcarry with ⟨rt, hm, hid⟩ | ⟨mt, hm, hid⟩
      · have : db.recurringExpenseTags.any
            (fun rt => rt.user_tag_id == ut.id) = true :=
          List.any_eq_true.mpr ⟨rt, hm, by simp [hid]⟩
        simp [this]
      · have : db.mileageLogTags.any
            (fun mt => mt.user_tag_id == ut.id) = true :=
          List.any_eq_true.mpr ⟨mt, hm, by simp [hid]⟩
        simp [this]
    simp only [deleteTag, hf]
    rw [if_pos hc]

/-- **C4**.  The summary statistics equal: total = sum of the user's
stored expenses in range plus the sum of the expanded recurring instances
in range; count = the number of those records; average = total / count,
and 0 when the count is 0. -/
theorem summary_stats_correct (db : DB) (uid : ℕ)
    (dfrom dto : Option DateTime) (today : DateTime) :
    (getSummaryStats db uid dfrom dto today).total_amount
      = (((db.expenses.filter (fun e => e.user_id == uid)).filter
            (fun e => inDateRange dfrom dto e.date)).map Expense.amount).sum
        + (((expandRecurringExpenses
              ((db.recurringExpenses.filter (fun r => r.user_id == uid)).map
                (fun r => (r, db.recurringTagIds r.id))) uid today).filter
            (fun v => inDateRange dfrom dto v.date)).map
            VirtualExpense.amount).sum ∧
    (getSummaryStats db uid dfrom dto today).expense_count
      = ((db.expenses.filter (fun e => e.user_id == uid)).filter
            (fun e => inDateRange dfrom dto e.date)).length
        + ((expandRecurringExpenses
              ((db.recurringExpenses.filter (fun r => r.user_id == uid)).map
                (fun r => (r, db.recurringTagIds r.id))) uid today).filter
            (fun v => inDateRange dfrom dto v.date)).length ∧
    ((getSummaryStats db uid dfrom dto today).expense_count = 0 →
      (getSummaryStats db uid dfrom dto today).average_amount = 0) ∧
    (0 < (getSummaryStats db uid dfrom dto today).expense_count →
      (getSummaryStats db uid dfrom dto today).average_amount
        = (getSummaryStats db uid dfrom dto today).total_amount
          / (getSummaryStats db uid dfrom dto today).expense_count) := by
  refine ⟨?_, ?_, ?_, ?_⟩
  · show (_ ++ _ : List ℚ).sum = _
    rw [List.sum_append]
  · show (_ ++ _ : List ℚ).length = _
    rw [List.length_append]
    simp [List.length_map]
  · intro hc
    show (if 0 < (_ ++ _ : List ℚ).length then _ else (0 : ℚ)) = 0
    rw [if_neg]
    intro hlt
    have : (getSummaryStats db uid dfrom dto today).expense_count
        = ((_ ++ _ : List ℚ)).length := rfl
    omega
  · intro hc
    show (if 0 < (_ ++ _ : List ℚ).length then _ else (0 : ℚ)) = _
    rw [if_pos]
    · rfl
    · exact hc

/-- **C7** (amended).  The user-lookup retry loop makes at most 3 attempts,
sleeping 0.5 s then 1.0 s between them, and retries only on
"database is locked" `OperationalError`s; a lock error on the final
attempt raises 503, a non-lock `OperationalError` raises 503 immediately
(not 500 — see the counterexample), and any other exception raises 500
after rolling back. -/
theorem get_or_create_user_retry (attempts : ℕ → AttemptOutcome) :
    1 ≤ (getOrCreateUser attempts).attemptsUsed ∧
    (getOrCreateUser attempts).attemptsUsed ≤ 3 ∧
    (getOrCreateUser attempts).delays
      = [(1 : ℚ)/2, 1].take ((getOrCreateUser attempts).attemptsUsed - 1) ∧
    (∀ i, i + 1 < (getOrCreateUser attempts).attemptsUsed →
      attempts i = .lock) ∧
    (∀ u, attempts ((getOrCreateUser attempts).attemptsUsed - 1) = .ok u →
      (getOrCreateUser attempts).result = .ok u ∧
      (getOrCreateUser attempts).rolledBack = false) ∧
    (attempts ((getOrCreateUser attempts).attemptsUsed - 1) = .lock →
      (getOrCreateUser attempts).result = .error 503 ∧
      (getOrCreateUser attempts).attemptsUsed = 3) ∧
    (attempts ((getOrCreateUser attempts).attemptsUsed - 1) = .opError →
      (getOrCreateUser attempts).result = .error 503) ∧
    (attempts ((getOrCreateUser attempts).attemptsUsed - 1) = .failure →
      (getOrCreateUser attempts).result = .error 500 ∧
      (getOrCreateUser attempts).rolledBack = true) := by
  have hq : ((1 : ℚ)/2) * 2 = 1 := by norm_num
  unfold getOrCreateUser maxRetries initialRetryDelay
  cases h0 : attempts 0 with
  | ok u =>
      have hval : retryAttempts attempts 3 0 (1/2) []
          = ⟨.ok u, [], 1, false⟩ := by
        simp [retryAttempts, h0]
      rw [hval]
      refine ⟨by norm_num, by norm_num, rfl, ?_, ?_, ?_, ?_, ?_⟩
      · intro i hi
        exact absurd (show i + 1 < 1 from hi) (by omega)
      · intro u2 happ
        have happ0 : attempts 0 = .ok u2 := happ
        rw [h0] at happ0
        injection happ0 with hu
        exact ⟨by rw [← hu], rfl⟩
      · intro happ
        have happ0 : attempts 0 = .lock := happ
        rw [h0] at happ0
        exact AttemptOutcome.noConfusion happ0
      · intro happ
        have happ0 : attempts 0 = .opError := happ
        rw [h0] at happ0
        exact AttemptOutcome.noConfusion happ0
      · intro happ
        have happ0 : attempts 0 = .failure := happ
        rw [h0] at happ0
        exact AttemptOutcome.noConfusion happ0
  | opError =>
      have hval : retryAttempts attempts 3 0 (1/2) []
          = ⟨.error 503, [], 1, false⟩ := by
        simp [retryAttempts, h0]
      rw [hval]
      refine ⟨by norm_num, by norm_num, rfl, ?_, ?_, ?_, ?_, ?_⟩
      · intro i hi
        exact absurd (show i + 1 < 1 from hi) (by omega)
      · intro u2 happ
        have happ0 : attempts 0 = .ok u2 := happ
        rw [h0] at happ0
        exact AttemptOutcome.noConfusion happ0
      · intro happ
        have happ0 : attempts 0 = .lock := happ
        rw [h0] at happ0
        exact AttemptOutcome.noConfusion happ0
      · intro happ
        have happ0 : attempts 0 = .opError := happ
        rw [h0] at happ0
      · intro happ
        have happ0 : attempts 0 = .failure := happ
        rw [h0] at happ0
        exact AttemptOutcome.noConfusion happ0
  | failure =>
      have hval : retryAttempts attempts 3 0 (1/2) []
          = ⟨.error 500, [], 1, true⟩ := by
        simp [retryAttempts, h0]
      rw [hval]
      refine ⟨by norm_num, by norm_num, rfl, ?_, ?_, ?_, ?_, ?_⟩
      · intro i hi
        exact absurd (show i + 1 < 1 from hi) (by omega)
      · intro u2 happ
        have happ0 : attempts 0 = .ok u2 := happ
        rw [h0] at happ0
        exact AttemptOutcome.noConfusion happ0
      · intro happ
        have happ0 : attempts 0 = .lock := happ
        rw [h0] at happ0
        exact AttemptOutcome.noConfusion happ0
      · intro happ
        have happ0 : attempts 0 = .opError := happ
        rw [h0] at happ0
        exact AttemptOutcome.noConfusion happ0
      · intro happ
        have happ0 : attempts 0 = .failure := happ
        rw [h0] at happ0
        exact ⟨rfl, rfl⟩
  | lock =>
      cases h1 : attempts 1 with
      | ok u =>
          have hval : retryAttempts attempts 3 0 (1/2) []
              = ⟨.ok u, [1/2], 2, false⟩ := by
            simp [retryAttempts, h0, h1]
          rw [hval]
          refine ⟨by norm_num, by norm_num, rfl, ?_, ?_, ?_, ?_, ?_⟩
          · intro i hi
            have hi2 : i + 1 < 2 := hi
            have hiz : i = 0 := by omega
            rw [hiz, h0]
          · intro u2 happ
            have happ0 : attempts 1 = .ok u2 := happ
            rw [h1] at happ0
            injection happ0 with hu
            exact ⟨by rw [← hu], rfl⟩
          · intro happ
            have happ0 : attempts 1 = .lock := happ
            rw [h1] at happ0
            exact AttemptOutcome.noConfusion happ0
          · intro happ
            have happ0 : attempts 1 = .opError := happ
            rw [h1] at happ0
            exact AttemptOutcome.noConfusion happ0
          · intro happ
            have happ0 : attempts 1 = .failure := happ
            rw [h1] at happ0
            exact AttemptOutcome.noConfusion happ0
      | opError =>
          have hval : retryAttempts attempts 3 0 (1/2) []
              = ⟨.error 503, [1/2], 2, false⟩ := by
            simp [retryAttempts, h0, h1]
          rw [hval]
          refine ⟨by norm_num, by norm_num, rfl, ?_, ?_, ?_, ?_, ?_⟩
          · intro i hi
            have hi2 : i + 1 < 2 := hi
            have hiz : i = 0 := by omega
            rw [hiz, h0]
          · intro u2 happ
            have happ0 : attempts 1 = .ok u2 := happ
            rw [h1] at happ0
            exact AttemptOutcome.noConfusion happ0
          · intro happ
            have happ0 : attempts 1 = .lock := happ
            rw [h1] at happ0
            exact AttemptOutcome.noConfusion happ0
          · intro happ
            have happ0 : attempts 1 = .opError := happ
            rw [h1] at happ0
          · intro happ
            have happ0 : attempts 1 = .failure := happ
            rw [h1] at happ0
            exact AttemptOutcome.noConfusion happ0
      | failure =>
          have hval : retryAttempts attempts 3 0 (1/2) []
              = ⟨.error 500, [1/2], 2, true⟩ := by
            simp [retryAttempts, h0, h1]
          rw [hval]
          refine ⟨by norm_num, by norm_num, rfl, ?_, ?_, ?_, ?_, ?_⟩
          · intro i hi
            have hi2 : i + 1 < 2 := hi
            have hiz : i = 0 := by omega
            rw [hiz, h0]
          · intro u2 happ
            have happ0 : attempts 1 = .ok u2 := happ
            rw [h1] at happ0
            exact AttemptOutcome.noConfusion happ0
          · intro happ
            have happ0 : attempts 1 = .lock := happ
            rw [h1] at happ0
            exact AttemptOutcome.noConfusion happ0
          · intro happ
            have happ0 : attempts 1 = .opError := happ
            rw [h1] at happ0
            exact AttemptOutcome.noConfusion happ0
          · intro happ
            have happ0 : attempts 1 = .failure := happ
            rw [h1] at happ0
            exact ⟨rfl, rfl⟩
      | lock =>
          cases h2 : attempts 2 with
          | ok u =>
              have hval : retryAttempts attempts 3 0 (1/2) []
                  = ⟨.ok u, [1/2, 1], 3, false⟩ := by
                simp [retryAttempts, h0, h1, h2, hq]
              rw [hval]
              refine ⟨by norm_num, by norm_num, rfl, ?_, ?_, ?_, ?_, ?_⟩
              · intro i hi
                have hi3 : i + 1 < 3 := hi
                have hiz : i = 0 ∨ i = 1 := by omega
                rcases hiz with rfl | rfl
                · rw [h0]
                · rw [h1]
              · intro u2 happ
                have happ0 : attempts 2 = .ok u2 := happ
                rw [h2] at happ0
                injection happ0 with hu
                exact ⟨by rw [← hu], rfl⟩
              · intro happ
                have happ0 : attempts 2 = .lock := happ
                rw [h2] at happ0
                exact AttemptOutcome.noConfusion happ0
              · intro happ
                have happ0 : attempts 2 = .opError := happ
                rw [h2] at happ0
                exact AttemptOutcome.noConfusion happ0
              · intro happ
                have happ0 : attempts 2 = .failure := happ
                rw [h2] at happ0
                exact AttemptOutcome.noConfusion happ0
          | opError =>
              have hval : retryAttempts attempts 3 0 (1/2) []
                  = ⟨.error 503, [1/2, 1], 3, false⟩ := by
                simp [retryAttempts, h0, h1, h2, hq]
              rw [hval]
              refine ⟨by norm_num, by norm_num, rfl, ?_, ?_, ?_, ?_, ?_⟩
              · intro i hi
                have hi3 : i + 1 < 3 := hi
                have hiz : i = 0 ∨ i = 1 := by omega
                rcases hiz with rfl | rfl
                · rw [h0]
                · rw [h1]
              · intro u2 happ
                have happ0 : attempts 2 = .ok u2 := happ
                rw [h2] at happ0
                exact AttemptOutcome.noConfusion happ0
              · intro happ
                have happ0 : attempts 2 = .lock := happ
                rw [h2] at happ0
                exact AttemptOutcome.noConfusion happ0
              · intro happ
                have happ0 : attempts 2 = .opError := happ
                rw [h2] at happ0
              · intro happ
                have happ0 : attempts 2 = .failure := happ
                rw [h2] at happ0
                exact AttemptOutcome.noConfusion happ0
          | failure =>
              have hval : retryAttempts attempts 3 0 (1/2) []
                  = ⟨.error 500, [1/2, 1], 3, true⟩ := by
                simp [retryAttempts, h0, h1, h2, hq]
              rw [hval]
              refine ⟨by norm_num, by norm_num, rfl, ?_, ?_, ?_, ?_, ?_⟩
              · intro i hi
                have hi3 : i + 1 < 3 := hi
                have hiz : i = 0 ∨ i = 1 := by omega
                rcases hiz with rfl | rfl
                · rw [h0]
                · rw [h1]
              · intro u2 happ
                have happ0 : attempts 2 = .ok u2 := happ
                rw [h2] at happ0
                exact AttemptOutcome.noConfusion happ0
              · intro happ
                have happ0 : attempts 2 = .lock := happ
                rw [h2] at happ0
                exact AttemptOutcome.noConfusion happ0
              · intro happ
                have happ0 : attempts 2 = .opError := happ
                rw [h2] at happ0
                exact AttemptOutcome.noConfusion happ0
              · intro happ
                have happ0 : attempts 2 = .failure := happ
                rw [h2] at happ0
                exact ⟨rfl, rfl⟩
          | lock =>
              have hval : retryAttempts attempts 3 0 (1/2) []
                  = ⟨.error 503, [1/2, 1], 3, false⟩ := by
                simp [retryAttempts, h0, h1, h2, hq]
              rw [hval]
              refine ⟨by norm_num, by norm_num, rfl, ?_, ?_, ?_, ?_, ?_⟩
              · intro i hi
                have hi3 : i + 1 < 3 := hi
                have hiz : i = 0 ∨ i = 1 := by omega
                rcases hiz with rfl | rfl
                · rw [h0]
                · rw [h1]
              · intro u2 happ
                have happ0 : attempts 2 = .ok u2 := happ
                rw [h2] at happ0
                exact AttemptOutcome.noConfusion happ0
              · intro happ
                have happ0 : attempts 2 = .lock := happ
                rw [h2] at happ0
                exact ⟨rfl, rfl⟩
              · intro happ
                have happ0 : attempts 2 = .opError := happ
                rw [h2] at happ0
              · intro happ
                have happ0 : attempts 2 = .failure := happ
                rw [h2] at happ0
                exact AttemptOutcome.noConfusion happ0

/-- **C7**, counterexample to the claim as stated: an `OperationalError`
whose message is not "database is locked" is a database failure, yet the
handler raises HTTP 503 on it (the `else` branch of `auth.py:215-224`),
not HTTP 500 as the claim requires. -/
theorem get_or_create_user_oplock_counterexample :
    (getOrCreateUser c7OpError).result = .error 503 ∧
    (Except.error 503 : Except ℕ ℕ) ≠ .error 500 := by
  constructor
  · rfl
  · intro hcontra
    injection hcontra with hh
    exact absurd hh (by decide)

/-- **C8**.  Google token verification is configured with the 10-second
session timeout; a timing-out verification call maps to HTTP 504, an
invalid token or one with a wrong issuer maps to HTTP 401, any other
verification failure maps to HTTP 401, and only a successfully verified
token with an accepted issuer yields the caller's google_id/email
identity. -/
theorem verify_google_token_spec :
    googleVerifyTimeoutSeconds = 10 ∧
    verifyGoogleToken .timeout = .error 504 ∧
    (∀ msg, verifyGoogleToken (.invalid msg) = .error 401) ∧
    verifyGoogleToken .otherError = .error 401 ∧
    (∀ iss sub email name picture,
      iss ≠ "accounts.google.com" → iss ≠ "https://accounts.google.com" →
      verifyGoogleToken (.ok iss sub email name picture) = .error 401) ∧
    (∀ iss sub email name picture,
      (iss = "accounts.google.com" ∨ iss = "https://accounts.google.com") →
      verifyGoogleToken (.ok iss sub email name picture)
        = .ok ⟨sub, email, name, picture⟩) ∧
    (∀ outcome u, verifyGoogleToken outcome = .ok u →
      ∃ iss name picture,
        (iss = "accounts.google.com" ∨ iss = "https://accounts.google.com") ∧
        outcome = .ok iss u.google_id u.email name picture) := by
  refine ⟨rfl, rfl, fun msg => rfl, rfl, ?_, ?_, ?_⟩
  · intro iss sub email name picture h1 h2
    show (if iss ≠ "accounts.google.com" ∧
          iss ≠ "https://accounts.google.com"
        then (Except.error 401 : Except ℕ GoogleUserData)
        else Except.ok ⟨sub, email, name, picture⟩) = Except.error 401
    rw [if_pos ⟨h1, h2⟩]
  · intro iss sub email name picture h
    show (if iss ≠ "accounts.google.com" ∧
          iss ≠ "https://accounts.google.com"
        then (Except.error 401 : Except ℕ GoogleUserData)
        else Except.ok ⟨sub, email, name, picture⟩)
      = Except.ok ⟨sub, email, name, picture⟩
    rw [if_neg]
    intro hcontra
    rcases h with h | h
    · exact hcontra.1 h
    · exact hcontra.2 h
  · intro outcome u h
    cases outcome with
    | timeout => exact absurd h (by simp [verifyGoogleToken])
    | invalid msg => exact absurd h (by simp [verifyGoogleToken])
    | otherError => exact absurd h (by simp [verifyGoogleToken])
    | ok iss sub email name picture =>
        have h2 : (if iss ≠ "accounts.google.com" ∧
              iss ≠ "https://accounts.google.com"
            then (Except.error 401 : Except ℕ GoogleUserData)
            else Except.ok ⟨sub, email, name, picture⟩) = Except.ok u := h
        by_cases hiss : iss ≠ "accounts.google.com" ∧
            iss ≠ "https://accounts.google.com"
        · rw [if_pos hiss] at h2
          exact absurd h2 (by simp)
        · rw [if_neg hiss] at h2
          simp only [Except.ok.injEq] at h2
          rw [← h2]
          refine ⟨iss, name, picture, ?_, rfl⟩
          by_cases h1 : iss = "accounts.google.com"
          · exact Or.inl h1
          · refine Or.inr ?_
            by_cases h2 : iss = "https://accounts.google.com"
            · exact h2
            · exact absurd ⟨h1, h2⟩ hiss

theorem processExpenseTags_spec (uid eid : ℕ) :
    ∀ (tags : List String) (db : DB),
      (processExpenseTags uid eid db tags).expenses = db.expenses ∧
      (∀ t ∈ db.userTags, t ∈ (processExpenseTags uid eid db tags).userTags) ∧
      (∀ x ∈ db.expenseTagIds eid,
        x ∈ (processExpenseTags uid eid db tags).expenseTagIds eid) ∧
      (∀ raw ∈ tags, raw.trim ≠ "" →
        ∃ ut ∈ (processExpenseTags uid eid db tags).userTags,
          ut.user_id = uid ∧ ut.name = raw.trim ∧
          ut.id ∈ (processExpenseTags uid eid db tags).expenseTagIds eid) ∧
      (∀ utid ∈ (processExpenseTags uid eid db tags).expenseTagIds eid,
        utid ∈ db.expenseTagIds eid ∨
        ∃ ut ∈ (processExpenseTags uid eid db tags).userTags,
          ut.id = utid ∧ ut.user_id = uid ∧
          ∃ raw ∈ tags, raw.trim ≠ "" ∧ ut.name = raw.trim) ∧
      (∀ n, (processExpenseTags uid eid db tags).tagNameCount uid n =
        if n ∈ tags.filterMap (fun raw =>
            if raw.trim = "" then none else some raw.trim)
        then max (db.tagNameCount uid n) 1 else db.tagNameCount uid n) := by
  intro tags
  induction tags with
  | nil =>
      intro db
      refine ⟨rfl, fun t ht => ht, fun x hx => hx, ?_, ?_, ?_⟩
      · intro raw hraw
        exact absurd hraw (List.not_mem_nil raw)
      · intro utid hin
        exact Or.inl hin
      · intro n
        simp [processExpenseTags]
  | cons raw rest ih =>
      intro db
      by_cases htrim : raw.trim ≠ ""
      · cases hf : db.userTags.find?
            (fun t => t.user_id == uid && t.name == raw.trim) with
        | some ut =>
            have hred : processExpenseTags uid eid db (raw :: rest)
                = processExpenseTags uid eid
                  { db with
                    expenseTags :=
                      db.expenseTags ++ [⟨db.nextId, eid, ut.id⟩],
                    nextId := db.nextId + 1 } rest := by
              simp only [processExpenseTags]
              rw [if_pos htrim, hf]
            set db1 : DB := { db with
              expenseTags := db.expenseTags ++ [⟨db.nextId, eid, ut.id⟩],
              nextId := db.nextId + 1 } with hdb1
            obtain ⟨i1, i2, i3, i4, i5, i6⟩ := ih db1
            have hfs := List.find?_some hf
            simp only [Bool.and_eq_true, beq_iff_eq] at hfs
            have hmem := List.mem_of_find?_eq_some hf
            have htag1 : db1.expenseTagIds eid
                = db.expenseTagIds eid ++ [ut.id] := by
              unfold DB.expenseTagIds
              show ((db.expenseTags ++ _).filter _).map _ = _
              rw [List.filter_append, List.map_append]
              congr 1
              simp
            have hc1 : ∀ n, db1.tagNameCount uid n
                = db.tagNameCount uid n := fun n => rfl
            rw [hred]
            refine ⟨i1, ?_, ?_, ?_, ?_, ?_⟩
            · intro t ht
              exact i2 t ht
            · intro x hx
              refine i3 x ?_
              rw [htag1]
              exact List.mem_append_left _ hx
            · intro raw2 hraw2 htrim2
              rcases List.mem_cons.mp hraw2 with rfl | hraw2r
              · refine ⟨ut, i2 ut hmem, hfs.1, hfs.2, ?_⟩
                refine i3 ut.id ?_
                rw [htag1]
                exact List.mem_append_right _ (by simp)
              · exact i4 raw2 hraw2r htrim2
            · intro utid hin
              rcases i5 utid hin with hl | ⟨ut2, hm2, hi2, hu2, raw2, hr2,
                  ht2, hn2⟩
              · rw [htag1] at hl
                rcases List.mem_append.mp hl with hl2 | hl2
                · exact Or.inl hl2
                · refine Or.inr ⟨ut, i2 ut hmem, ?_, hfs.1, raw, by simp,
                    htrim, hfs.2⟩
                  have := List.mem_singleton.mp hl2
                  rw [this]
              · exact Or.inr ⟨ut2, hm2, hi2, hu2, raw2,
                  List.mem_cons_of_mem raw hr2, ht2, hn2⟩
            · intro n
              rw [i6 n, hc1 n]
              have hcnt : 1 ≤ db.tagNameCount uid raw.trim := by
                unfold DB.tagNameCount
                rw [Nat.succ_le_iff, List.countP_pos_iff]
                exact ⟨ut, hmem, by simp [hfs.1, hfs.2]⟩
              have hset : (raw :: rest).filterMap (fun r =>
                  if r.trim = "" then none else some r.trim)
                  = raw.trim :: rest.filterMap (fun r =>
                    if r.trim = "" then none else some r.trim) := by
                simp [List.filterMap_cons, htrim]
              rw [hset]
              by_cases hn : n = raw.trim
              · subst hn
                have hmax : max (db.tagNameCount uid raw.trim) 1
                    = db.tagNameCount uid raw.trim :=
                  Nat.max_eq_left hcnt
                rw [if_pos (List.mem_cons_self _ _)]
                by_cases hm : raw.trim ∈ rest.filterMap (fun r =>
                    if r.trim = "" then none else some r.trim)
                · rw [if_pos hm]
                · rw [if_neg hm, hmax]
              · by_cases hm : n ∈ rest.filterMap (fun r =>
                    if r.trim = "" then none else some r.trim)
                · rw [if_pos hm, if_pos (List.mem_cons_of_mem _ hm)]
                · rw [if_neg hm, if_neg (fun hcon =>
                    (List.mem_cons.mp hcon).elim (fun h1 => hn h1) hm)]
        | none =>
            have hred : processExpenseTags uid eid db (raw :: rest)
                = processExpenseTags uid eid
                  { db with
                    userTags := db.userTags ++ [⟨db.nextId, uid, raw.trim⟩],
                    expenseTags :=
                      db.expenseTags ++ [⟨db.nextId + 1, eid, db.nextId⟩],
                    nextId := db.nextId + 2 } rest := by
              simp only [processExpenseTags]
              rw [if_pos htrim, hf]
            set ut0 : UserTag := ⟨db.nextId, uid, raw.trim⟩ with hut0
            set db1 : DB := { db with
              userTags := db.userTags ++ [ut0],
              expenseTags := db.expenseTags ++ [⟨db.nextId + 1, eid,
                db.nextId⟩],
              nextId := db.nextId + 2 } with hdb1
            obtain ⟨i1, i2, i3, i4, i5, i6⟩ := ih db1
            have htag1 : db1.expenseTagIds eid
                = db.expenseTagIds eid ++ [db.nextId] := by
              unfold DB.expenseTagIds
              show ((db.expenseTags ++ _).filter _).map _ = _
              rw [List.filter_append, List.map_append]
              congr 1
              simp
            have hzero : db.tagNameCount uid raw.trim = 0 := by
              unfold DB.tagNameCount
              rw [List.countP_eq_zero]
              intro t ht
              rw [List.find?_eq_none] at hf
              exact hf t ht
            have hc1 : ∀ n, db1.tagNameCount uid n
                = db.tagNameCount uid n
                  + (if raw.trim = n then 1 else 0) := by
              intro n
              unfold DB.tagNameCount
              show (db.userTags ++ [ut0]).countP _ = _
              rw [List.countP_append]
              congr 1
              simp [List.countP_cons]
            rw [hred]
            refine ⟨i1, ?_, ?_, ?_, ?_, ?_⟩
            · intro t ht
              exact i2 t (List.mem_append_left _ ht)
            · intro x hx
              refine i3 x ?_
              rw [htag1]
              exact List.mem_append_left _ hx
            · intro raw2 hraw2 htrim2
              rcases List.mem_cons.mp hraw2 with rfl | hraw2r
              · refine ⟨ut0, i2 ut0 (List.mem_append_right _ (by simp)),
                  rfl, rfl, ?_⟩
                refine i3 ut0.id ?_
                rw [htag1]
                exact List.mem_append_right _ (by simp)
              · exact i4 raw2 hraw2r htrim2
            · intro utid hin
              rcases i5 utid hin with hl | ⟨ut2, hm2, hi2, hu2, raw2, hr2,
                  ht2, hn2⟩
              · rw [htag1] at hl
                rcases List.mem_append.mp hl with hl2 | hl2
                · exact Or.inl hl2
                · refine Or.inr ⟨ut0,
                    i2 ut0 (List.mem_append_right _ (by simp)), ?_, rfl,
                    raw, by simp, htrim, rfl⟩
                  have := List.mem_singleton.mp hl2
                  rw [this]
              · exact Or.inr ⟨ut2, hm2, hi2, hu2, raw2,
                  List.mem_cons_of_mem raw hr2, ht2, hn2⟩
            · intro n
              rw [i6 n, hc1 n]
              have hset : (raw :: rest).filterMap (fun r =>
                  if r.trim = "" then none else some r.trim)
                  = raw.trim :: rest.filterMap (fun r =>
                    if r.trim = "" then none else some r.trim) := by
                simp [List.filterMap_cons, htrim]
              rw [hset]
              by_cases hn : n = raw.trim
              · subst hn
                rw [hzero, if_pos rfl, if_pos (List.mem_cons_self _ _)]
                by_cases hm : raw.trim ∈ rest.filterMap (fun r =>
                    if r.trim = "" then none else some r.trim)
                · rw [if_pos hm]
                  simp
                · rw [if_neg hm]
                  simp
              · have he : (if raw.trim = n then 1 else 0) = 0 :=
                  if_neg (fun hh => hn hh.symm)
                rw [he, Nat.add_zero]
                by_cases hm : n ∈ rest.filterMap (fun r =>
                    if r.trim = "" then none else some r.trim)
                · rw [if_pos hm, if_pos (List.mem_cons_of_mem _ hm)]
                · rw [if_neg hm, if_neg (fun hcon =>
                    (List.mem_cons.mp hcon).elim (fun h1 => hn h1) hm)]
      · have htrimeq : raw.trim = "" := not_not.mp htrim
        have hred : processExpenseTags uid eid db (raw :: rest)
            = processExpenseTags uid eid db rest := by
          simp only [processExpenseTags]
          rw [if_neg htrim]
        obtain ⟨i1, i2, i3, i4, i5, i6⟩ := ih db
        rw [hred]
        refine ⟨i1, i2, i3, ?_, ?_, ?_⟩
        · intro raw2 hraw2 htrim2
          rcases List.mem_cons.mp hraw2 with rfl | hraw2r
          · exact absurd htrimeq htrim2
          · exact i4 raw2 hraw2r htrim2
        · intro utid hin
          rcases i5 utid hin with hl | ⟨ut2, hm2, hi2, hu2, raw2, hr2,
              ht2, hn2⟩
          · exact Or.inl hl
          · exact Or.inr ⟨ut2, hm2, hi2, hu2, raw2,
              List.mem_cons_of_mem raw hr2, ht2, hn2⟩
        · intro n
          rw [i6 n]
          have hset : (raw :: rest).filterMap (fun r =>
              if r.trim = "" then none else some r.trim)
              = rest.filterMap (fun r =>
                if r.trim = "" then none else some r.trim) := by
            simp [List.filterMap_cons, htrimeq]
          rw [hset]

/-- **C6**.  Creating an expense with a tag list succeeds with a created
expense carrying, for each entry that is non-empty after trimming, the
trimmed name (through a per-user `UserTag` that is created when absent and
reused when present), and carrying nothing else: whitespace-only entries
are ignored.  The tag-count conjunct states get-or-create exactly: a
trimmed name's per-user row count becomes `max(previous, 1)`, all other
counts are unchanged. -/
theorem create_expense_tags_correct (db : DB) (uid : ℕ) (inp : ExpenseCreate)
    (now : DateTime) (db' : DB) (eid : ℕ) (hfresh : db.Fresh)
    (h : createExpense db uid inp now = (db', eid)) :
    (∃ e ∈ db'.expenses, e.id = eid ∧ e.user_id = uid ∧
      e.description = .plain inp.description ∧
      e.recipient = inp.recipient ∧ e.amount = inp.amount ∧
      e.date = inp.date.getD now) ∧
    (∀ raw ∈ inp.tags, raw.trim ≠ "" →
      ∃ ut ∈ db'.userTags, ut.user_id = uid ∧ ut.name = raw.trim ∧
        ut.id ∈ db'.expenseTagIds eid) ∧
    (∀ utid ∈ db'.expenseTagIds eid,
      ∃ ut ∈ db'.userTags, ut.id = utid ∧ ut.user_id = uid ∧
        ∃ raw ∈ inp.tags, raw.trim ≠ "" ∧ ut.name = raw.trim) ∧
    (∀ n, db'.tagNameCount uid n =
      if n ∈ inp.tags.filterMap (fun raw =>
          if raw.trim = "" then none else some raw.trim)
      then max (db.tagNameCount uid n) 1 else db.tagNameCount uid n) := by
  obtain ⟨hfU, hfE, hfET, hfV, hfML, hfMLT⟩ := hfresh
  unfold createExpense at h
  simp only [Prod.mk.injEq] at h
  obtain ⟨hdb, heid⟩ := h
  subst heid
  set e0 : Expense := ⟨db.nextId, uid, .plain inp.description,
    inp.recipient, inp.materials, inp.hours, inp.amount, inp.date.getD now,
    false, none, none⟩ with he0
  set db1 : DB := { db with expenses := db.expenses ++ [e0],
                            nextId := db.nextId + 1 } with hdb1
  obtain ⟨i1, i2, i3, i4, i5, i6⟩ :=
    processExpenseTags_spec uid db.nextId inp.tags db1
  have htag0 : db1.expenseTagIds db.nextId = [] := by
    unfold DB.expenseTagIds
    rw [List.map_eq_nil_iff, List.filter_eq_nil_iff]
    intro et het
    have : et.expense_id < db.nextId := (hfET et het).2.1
    simp only [beq_iff_eq]
    omega
  refine ⟨?_, ?_, ?_, ?_⟩
  · rw [← hdb, i1]
    exact ⟨e0, by simp, rfl, rfl, rfl, rfl, rfl, rfl⟩
  · intro raw hraw htrim
    obtain ⟨ut, hutm, hu1, hu2, hu3⟩ := i4 raw hraw htrim
    rw [← hdb]
    exact ⟨ut, hutm, hu1, hu2, hu3⟩
  · intro utid hin
    rw [← hdb] at hin
    rcases i5 utid hin with hl | ⟨ut, hm, hi, hu, raw, hr, ht, hn⟩
    · rw [htag0] at hl
      exact absurd hl (List.not_mem_nil utid)
    · rw [← hdb]
      exact ⟨ut, hm, hi, hu, raw, hr, ht, hn⟩
  · intro n
    rw [← hdb, i6 n]
    have : db1.tagNameCount uid n = db.tagNameCount uid n := rfl
    rw [this]

theorem mergeLoop_nil (tid : ℕ) (cur : List ExpenseTag) :
    mergeLoop tid cur [] = cur := rfl

theorem mergeLoop_spec (sid tid : ℕ) (hst : sid ≠ tid) :
    ∀ (rest cur : List ExpenseTag),
      cur.Pairwise (fun a b => a.id ≠ b.id) →
      rest.Pairwise (fun a b => a.id ≠ b.id) →
      (∀ et ∈ rest, et ∈ cur ∧ et.user_tag_id = sid) →
      (∀ x ∈ cur, x.user_tag_id = sid → x ∈ rest) →
      (∀ E, pairCount cur E tid ≤ 1) →
      (∀ E, pairCount cur E sid ≤ 1) →
      (∀ x ∈ mergeLoop tid cur rest, x.user_tag_id ≠ sid) ∧
      (∀ E, pairCount (mergeLoop tid cur rest) E tid
        = if 0 < pairCount cur E tid ∨ ∃ et ∈ rest, et.expense_id = E
          then 1 else 0) ∧
      (∀ x : ExpenseTag, x.user_tag_id ≠ sid → x.user_tag_id ≠ tid →
        (x ∈ mergeLoop tid cur rest ↔ x ∈ cur)) := by
  intro rest
  induction rest with
  | nil =>
      intro cur hnodupC hnodupR hsub hsrc hdedT hdedS
      rw [mergeLoop_nil]
      refine ⟨?_, ?_, fun x _ _ => Iff.rfl⟩
      · intro x hx hxs
        exact absurd (hsrc x hx hxs) (List.not_mem_nil x)
      · intro E
        by_cases h : 0 < pairCount cur E tid
        · rw [if_pos (Or.inl h)]
          have := hdedT E
          omega
        · rw [if_neg (fun hcon => hcon.elim h
            (fun ⟨e2, he2, _⟩ => List.not_mem_nil e2 he2))]
          omega
  | cons et rest2 ih =>
      intro cur hnodupC hnodupR hsub hsrc hdedT hdedS
      obtain ⟨hetc, hets⟩ := hsub et (List.mem_cons_self _ _)
      have hheads := (List.pairwise_cons.mp hnodupR).1
      have hnR2 := (List.pairwise_cons.mp hnodupR).2
      obtain ⟨l1, l2, hsplit⟩ := List.append_of_mem hetc
      subst hsplit
      have hpa := List.pairwise_append.mp hnodupC
      have hl2 : ∀ b ∈ l2, et.id ≠ b.id :=
        (List.pairwise_cons.mp hpa.2.1).1
      have hl1 : ∀ a ∈ l1, a.id ≠ et.id := fun a ha =>
        hpa.2.2 a ha et (List.mem_cons_self _ _)
      have hpet : ∀ E, (et.expense_id == E && et.user_tag_id == tid)
          = false := by
        intro E
        rw [hets]
        by_cases hE : et.expense_id = E <;> simp [hE, hst]
      cases hany : (l1 ++ et :: l2).any
          (fun x => x.expense_id == et.expense_id &&
            x.user_tag_id == tid) with
      | true =>
          have hred : mergeLoop tid (l1 ++ et :: l2) (et :: rest2)
              = mergeLoop tid ((l1 ++ et :: l2).filter
                  (fun x => x.id ≠ et.id)) rest2 := by
            simp only [mergeLoop]
            rw [hany]
            rfl
          have hfilter : (l1 ++ et :: l2).filter (fun x => x.id ≠ et.id)
              = l1 ++ l2 := by
            rw [List.filter_append, List.filter_cons]
            have h1 : l1.filter (fun x => x.id ≠ et.id) = l1 :=
              List.filter_eq_self.mpr (fun a ha => by
                simpa using hl1 a ha)
            have h2 : l2.filter (fun x => x.id ≠ et.id) = l2 :=
              List.filter_eq_self.mpr (fun a ha => by
                simp
                exact fun hc => hl2 a ha hc.symm)
            rw [h1, h2]
            simp
          rw [hred, hfilter]
          have hcnt_eq : ∀ E u, pairCount (l1 ++ l2) E u
              = pairCount (l1 ++ et :: l2) E u
                - (if et.expense_id = E ∧ et.user_tag_id = u then 1
                   else 0) := by
            intro E u
            unfold pairCount
            rw [List.countP_append, List.countP_append, List.countP_cons]
            by_cases hE : et.expense_id = E ∧ et.user_tag_id = u
            · rw [if_pos hE]
              have hb : (et.expense_id == E && et.user_tag_id == u)
                  = true := by simp [hE.1, hE.2]
              rw [hb]
              simp only [if_pos]
              omega
            · rw [if_neg hE]
              have hb : (et.expense_id == E && et.user_tag_id == u)
                  = false := by
                by_cases h1 : et.expense_id = E
                · by_cases h2 : et.user_tag_id = u
                  · exact absurd ⟨h1, h2⟩ hE
                  · simp [h2]
                · simp [h1]
              rw [hb]
              simp only [Bool.false_eq_true, if_false]
              omega
          have hcnt_t : ∀ E, pairCount (l1 ++ l2) E tid
              = pairCount (l1 ++ et :: l2) E tid := by
            intro E
            rw [hcnt_eq E tid, if_neg (fun hc => hst (hets ▸ hc.2))]
            omega
          obtain ⟨a2, b2, c2⟩ := ih (l1 ++ l2)
            (List.pairwise_append.mpr ⟨hpa.1,
              (List.pairwise_cons.mp hpa.2.1).2,
              fun a ha b hb => hpa.2.2 a ha b (List.mem_cons_of_mem _ hb)⟩)
            hnR2
            (fun e2 he2 => by
              obtain ⟨hm, hs⟩ := hsub e2 (List.mem_cons_of_mem _ he2)
              refine ⟨?_, hs⟩
              rcases List.mem_append.mp hm with h1 | h1
              · exact List.mem_append_left _ h1
              · rcases List.mem_cons.mp h1 with rfl | h2
                · exact absurd rfl (hheads _ he2)
                · exact List.mem_append_right _ h2)
            (fun x hx hxs => by
              have hxc : x ∈ l1 ++ et :: l2 := by
                rcases List.mem_append.mp hx with h1 | h1
                · exact List.mem_append_left _ h1
                · exact List.mem_append_right _ (List.mem_cons_of_mem _ h1)
              rcases List.mem_cons.mp (hsrc x hxc hxs) with rfl | h2
              · exfalso
                rcases List.mem_append.mp hx with h1 | h1
                · exact hl1 x h1 rfl
                · exact hl2 x h1 rfl
              · exact h2)
            (fun E => by rw [hcnt_t E]; exact hdedT E)
            (fun E => by
              rw [hcnt_eq E sid]
              have := hdedS E
              omega)
          refine ⟨a2, ?_, ?_⟩
          · intro E
            rw [b2 E]
            refine if_congr ?_ rfl rfl
            rw [hcnt_t E]
            constructor
            · rintro (h | ⟨e2, he2, hE⟩)
              · exact Or.inl h
              · exact Or.inr ⟨e2, List.mem_cons_of_mem _ he2, hE⟩
            · rintro (h | ⟨e2, he2, hE⟩)
              · exact Or.inl h
              · rcases List.mem_cons.mp he2 with rfl | he2r
                · left
                  obtain ⟨x, hx, hpx⟩ := List.any_eq_true.mp hany
                  unfold pairCount
                  rw [List.countP_pos_iff]
                  refine ⟨x, hx, ?_⟩
                  rw [hE] at hpx
                  exact hpx
                · exact Or.inr ⟨e2, he2r, hE⟩
          · intro x hxs hxt
            rw [c2 x hxs hxt]
            constructor
            · intro hx
              rcases List.mem_append.mp hx with h1 | h1
              · exact List.mem_append_left _ h1
              · exact List.mem_append_right _ (List.mem_cons_of_mem _ h1)
            · intro hx
              rcases List.mem_append.mp hx with h1 | h1
              · exact List.mem_append_left _ h1
              · rcases List.mem_cons.mp h1 with rfl | h2
                · exact absurd hets hxs
                · exact List.mem_append_right _ h2
      | false =>
          have hred : mergeLoop tid (l1 ++ et :: l2) (et :: rest2)
              = mergeLoop tid ((l1 ++ et :: l2).map
                  (fun x => if x.id = et.id then
                    ⟨x.id, x.expense_id, tid⟩ else x)) rest2 := by
            simp only [mergeLoop]
            rw [hany]
            rfl
          have hmap : (l1 ++ et :: l2).map (fun x => if x.id = et.id then
              (⟨x.id, x.expense_id, tid⟩ : ExpenseTag) else x)
              = l1 ++ (⟨et.id, et.expense_id, tid⟩ : ExpenseTag) :: l2 := by
            rw [List.map_append, List.map_cons]
            rw [map_id_on _ l1 (fun a ha => if_neg (hl1 a ha))]
            rw [map_id_on _ l2 (fun a ha =>
              if_neg (fun hc => hl2 a ha hc.symm))]
            rw [if_pos rfl]
          set et2 : ExpenseTag := ⟨et.id, et.expense_id, tid⟩ with het2
          rw [hred, hmap]
          have hnone : ∀ x ∈ l1 ++ et :: l2,
              (x.expense_id == et.expense_id && x.user_tag_id == tid)
                = false := by
            intro x hx
            by_contra hc
            have hpx : (x.expense_id == et.expense_id &&
                x.user_tag_id == tid) = true := by
              revert hc
              cases (x.expense_id == et.expense_id &&
                x.user_tag_id == tid) <;> simp
            have : (l1 ++ et :: l2).any (fun x =>
                x.expense_id == et.expense_id && x.user_tag_id == tid)
                = true := List.any_eq_true.mpr ⟨x, hx, hpx⟩
            rw [hany] at this
            exact absurd this (by simp)
          have hzeroT : pairCount (l1 ++ et :: l2) et.expense_id tid
              = 0 := by
            unfold pairCount
            rw [List.countP_eq_zero]
            intro x hx
            have := hnone x hx
            simp only [this]
            simp
          have hpet2 : ∀ E, (et2.expense_id == E && et2.user_tag_id == tid)
              = (et.expense_id == E) := by
            intro E
            show (et.expense_id == E && (tid == tid)) = _
            simp
          have hcnt2 : ∀ E, pairCount (l1 ++ et2 :: l2) E tid
              = pairCount (l1 ++ et :: l2) E tid
                + (if et.expense_id = E then 1 else 0) := by
            intro E
            unfold pairCount
            rw [List.countP_append, List.countP_append, List.countP_cons,
              List.countP_cons, hpet E, hpet2 E]
            by_cases hE : et.expense_id = E <;> simp [hE] <;> omega
          have hcntS : ∀ E, pairCount (l1 ++ et2 :: l2) E sid
              ≤ pairCount (l1 ++ et :: l2) E sid := by
            intro E
            unfold pairCount
            rw [List.countP_append, List.countP_append, List.countP_cons,
              List.countP_cons]
            have h2 : (et2.expense_id == E && et2.user_tag_id == sid)
                = false := by
              show (et.expense_id == E && (tid == sid)) = false
              have : (tid == sid) = false := by
                simp
                exact fun hc => hst hc.symm
              rw [this]
              simp
            rw [h2]
            simp only [Bool.false_eq_true, if_false]
            omega
          obtain ⟨a2, b2, c2⟩ := ih (l1 ++ et2 :: l2)
            (by
              refine List.pairwise_append.mpr ⟨hpa.1,
                List.pairwise_cons.mpr ⟨?_,
                  (List.pairwise_cons.mp hpa.2.1).2⟩, ?_⟩
              · intro b hb
                exact hl2 b hb
              · intro a ha b hb
                rcases List.mem_cons.mp hb with rfl | h2
                · exact hpa.2.2 a ha et (List.mem_cons_self _ _)
                · exact hpa.2.2 a ha b (List.mem_cons_of_mem _ h2))
            hnR2
            (fun e2 he2 => by
              obtain ⟨hm, hs⟩ := hsub e2 (List.mem_cons_of_mem _ he2)
              refine ⟨?_, hs⟩
              rcases List.mem_append.mp hm with h1 | h1
              · exact List.mem_append_left _ h1
              · rcases List.mem_cons.mp h1 with rfl | h2
                · exact absurd rfl (hheads _ he2)
                · exact List.mem_append_right _
                    (List.mem_cons_of_mem _ h2))
            (fun x hx hxs => by
              rcases List.mem_append.mp hx with h1 | h1
              · have hxc : x ∈ l1 ++ et :: l2 := List.mem_append_left _ h1
                rcases List.mem_cons.mp (hsrc x hxc hxs) with rfl | h2
                · exact absurd rfl (hl1 x h1)
                · exact h2
              · rcases List.mem_cons.mp h1 with rfl | h2
                · exact absurd (show tid = sid from hxs)
                    (fun hc => hst hc.symm)
                · have hxc : x ∈ l1 ++ et :: l2 :=
                    List.mem_append_right _ (List.mem_cons_of_mem _ h2)
                  rcases List.mem_cons.mp (hsrc x hxc hxs) with rfl | h3
                  · exact absurd rfl (hl2 x h2)
                  · exact h3)
            (fun E => by
              rw [hcnt2 E]
              by_cases hE : et.expense_id = E
              · rw [if_pos hE]
                have := hdedT E
                have hz : pairCount (l1 ++ et :: l2) E tid = 0 := by
                  rw [← hE]
                  exact hzeroT
                omega
              · rw [if_neg hE]
                have := hdedT E
                omega)
            (fun E => Nat.le_trans (hcntS E) (hdedS E))
          refine ⟨a2, ?_, ?_⟩
          · intro E
            rw [b2 E]
            refine if_congr ?_ rfl rfl
            constructor
            · rintro (h | ⟨e2, he2, hE⟩)
              · rw [hcnt2 E] at h
                by_cases hE : et.expense_id = E
                · exact Or.inr ⟨et, List.mem_cons_self _ _, hE⟩
                · rw [if_neg hE] at h
                  exact Or.inl (by omega)
              · exact Or.inr ⟨e2, List.mem_cons_of_mem _ he2, hE⟩
            · rintro (h | ⟨e2, he2, hE⟩)
              · left
                rw [hcnt2 E]
                omega
              · rcases List.mem_cons.mp he2 with rfl | he2r
                · left
                  rw [hcnt2 E, if_pos hE]
                  omega
                · exact Or.inr ⟨e2, he2r, hE⟩
          · intro x hxs hxt
            rw [c2 x hxs hxt]
            constructor
            · intro hx
              rcases List.mem_append.mp hx with h1 | h1
              · exact List.mem_append_left _ h1
              · rcases List.mem_cons.mp h1 with rfl | h2
                · exact absurd rfl hxt
                · exact List.mem_append_right _
                    (List.mem_cons_of_mem _ h2)
            · intro hx
              rcases List.mem_append.mp hx with h1 | h1
              · exact List.mem_append_left _ h1
              · rcases List.mem_cons.mp h1 with rfl | h2
                · exact absurd hets hxs
                · exact List.mem_append_right _
                    (List.mem_cons_of_mem _ h2)

theorem expandRecurring_single (r : RecurringExpense) (rtagIds : List ℕ)
    (uid : ℕ) (today : DateTime) :
    expandRecurringExpenses [(r, rtagIds)] uid today
      = expandOne r rtagIds uid today := by
  simp [expandRecurringExpenses]

/-- **C1** (amended).  For a recurring template with calendar-valid start
and end months, `expand_recurring_expenses` produces, for every month from
the start month through the end month inclusive, exactly one virtual
`Expense` when that month's instance date (midnight of
`min(day_of_month, days in month)`) is strictly before the current
timestamp and none otherwise; every produced instance is dated strictly
before the current timestamp on such a capped instance date of an in-range
month.  (As stated the claim is false: an instance dated *today* is
produced whenever the current time is past that day's midnight — see the
counterexample.)  The expansion is a pure function of the templates and
the clock: it takes no database state and writes nothing to storage. -/
theorem recurring_expansion_correct (r : RecurringExpense) (rtagIds : List ℕ)
    (uid : ℕ) (today : DateTime)
    (hsm1 : 1 ≤ r.start_month) (hsm2 : r.start_month ≤ 12)
    (hem1 : 1 ≤ r.end_month) (hem2 : r.end_month ≤ 12) :
    (∀ e ∈ expandRecurringExpenses [(r, rtagIds)] uid today,
        e.date.ltB today = true ∧
        ∃ y m, 1 ≤ m ∧ m ≤ 12 ∧
          12 * r.start_year + r.start_month ≤ 12 * y + m ∧
          12 * y + m ≤ 12 * r.end_year + r.end_month ∧
          e.date = instanceDate r.day_of_month y m) ∧
    (∀ y m, 1 ≤ m → m ≤ 12 →
        12 * r.start_year + r.start_month ≤ 12 * y + m →
        12 * y + m ≤ 12 * r.end_year + r.end_month →
        (expandRecurringExpenses [(r, rtagIds)] uid today).countP (monthEq y m)
          = if (instanceDate r.day_of_month y m).ltB today then 1 else 0) := by
  rw [expandRecurring_single]
  constructor
  · intro e he
    rcases expandFrom_shape r rtagIds uid today (expandFuel r)
      r.start_year r.start_month hsm1 hsm2 e he with
      ⟨hlt, y', m', h1, h2, h3, h4, h5⟩
    exact ⟨hlt, y', m', h1, h2, h3, h4, h5⟩
  · intro y m hm1 hm2 hlo hhi
    exact expandFrom_countP r rtagIds uid today y m hm1 hm2 hem2 hhi
      (expandFuel r) r.start_year r.start_month hsm1 hsm2 hlo
      (by simp only [expandFuel]; omega)

theorem recurring_expansion_correct_witness :
    ((1 ≤ c1Template.start_month ∧ c1Template.start_month ≤ 12 ∧
        1 ≤ c1Template.end_month ∧ c1Template.end_month ≤ 12) ∧
      (1 ≤ 2 ∧ 2 ≤ 12 ∧
        12 * c1Template.start_year + c1Template.start_month ≤ 12 * 2024 + 2 ∧
        12 * 2024 + 2 ≤ 12 * c1Template.end_year + c1Template.end_month)) ∧
    (expandRecurringExpenses [(c1Template, [4])] 7 c1Today).countP
        (monthEq 2024 2)
      = if (instanceDate c1Template.day_of_month 2024 2).ltB c1Today then 1
        else 0 :=
  ⟨by decide,
    (recurring_expansion_correct c1Template [4] 7 c1Today (by decide)
        (by decide) (by decide) (by decide)).2 2024 2 (by decide) (by decide)
      (by decide) (by decide)⟩

/-- **C1**, counterexample to the claim as stated: with the current time at
2026-10-12 12:00, a template covering 2026-10 with day-of-month 12
produces an instance dated *today* (2026-10-12), contradicting
"produces no instance dated today or in the future". -/
theorem recurring_expansion_today_counterexample :
    (expandRecurringExpenses [(c1CounterTemplate, [])] 7 c1CounterToday).map
        (fun e => (e.date.year, e.date.month, e.date.day))
      = [(2026, 10, 12)] ∧
    (c1CounterToday.year, c1CounterToday.month, c1CounterToday.day)
      = (2026, 10, 12) := by
  constructor
  · rfl
  · rfl

/-- **C9**: after a successful `mergeTags` of a distinct source tag into a
target tag (both found for the user), the source `UserTag` row is deleted
while the target remains; no junction row for the source tag survives;
every expense that previously carried the source or the target tag carries
the target tag on exactly one junction row afterwards (and no other
expense does), so the merge never leaves two target rows on one expense;
and junction rows for every other tag are untouched. -/
theorem merge_tags_correct (db : DB) (uid : ℕ) (sourceTag targetTag : String)
    (s t : UserTag) (db' : DB)
    (hnodupU : db.userTags.Pairwise (fun a b => a.id ≠ b.id))
    (hnodupE : db.expenseTags.Pairwise (fun a b => a.id ≠ b.id))
    (hded : ∀ E u, pairCount db.expenseTags E u ≤ 1)
    (hs : db.userTags.find?
      (fun x => x.user_id == uid && x.name == sourceTag) = some s)
    (ht : db.userTags.find?
      (fun x => x.user_id == uid && x.name == targetTag) = some t)
    (hok : mergeTags db uid sourceTag targetTag = .ok db') :
    (∀ u ∈ db'.userTags, u.id ≠ s.id) ∧
    t ∈ db'.userTags ∧
    (∀ et ∈ db'.expenseTags, et.user_tag_id ≠ s.id) ∧
    (∀ E, pairCount db'.expenseTags E t.id
      = if 0 < pairCount db.expenseTags E t.id
          ∨ 0 < pairCount db.expenseTags E s.id
        then 1 else 0) ∧
    (∀ et : ExpenseTag, et.user_tag_id ≠ s.id → et.user_tag_id ≠ t.id →
      (et ∈ db'.expenseTags ↔ et ∈ db.expenseTags)) ∧
    db'.recurringExpenseTags = db.recurringExpenseTags ∧
    db'.mileageLogTags = db.mileageLogTags := by
  have hne : sourceTag ≠ targetTag := by
    intro h
    unfold mergeTags at hok
    rw [if_pos h] at hok
    exact Except.noConfusion hok
  have hsprops := List.find?_some hs
  have htprops := List.find?_some ht
  simp only [Bool.and_eq_true, beq_iff_eq] at hsprops htprops
  have hmems : s ∈ db.userTags := List.mem_of_find?_eq_some hs
  have hmemt : t ∈ db.userTags := List.mem_of_find?_eq_some ht
  have hstne : s ≠ t := by
    intro h
    exact hne (by rw [← hsprops.2, h, htprops.2])
  have hstid : s.id ≠ t.id :=
    hnodupU.forall (fun a b h => Ne.symm h) hmems hmemt hstne
  have hspec := mergeLoop_spec s.id t.id hstid
    (db.expenseTags.filter (fun et => et.user_tag_id == s.id))
    db.expenseTags
    hnodupE
    (hnodupE.filter _)
    (fun et het => ⟨(List.mem_filter.mp het).1, by
      have h2 := (List.mem_filter.mp het).2
      simpa using h2⟩)
    (fun x hx hxs => List.mem_filter.mpr ⟨hx, by simp [hxs]⟩)
    (fun E => hded E t.id)
    (fun E => hded E s.id)
  obtain ⟨hA, hB, hC⟩ := hspec
  simp only [mergeTags, if_neg hne, hs, ht] at hok
  by_cases hj : (db.recurringExpenseTags.any
        (fun rt => rt.user_tag_id == s.id)
      || db.mileageLogTags.any
        (fun mt => mt.user_tag_id == s.id)) = true
  · rw [if_pos hj] at hok
    exact absurd hok (by simp)
  · rw [if_neg hj] at hok
    simp only [Except.ok.injEq] at hok
    subst hok
    refine ⟨?_, ?_, ?_, ?_, ?_, rfl, rfl⟩
    · intro u hu
      have hu' : u ∈ db.userTags.filter (fun x => x.id ≠ s.id) := hu
      have h2 := (List.mem_filter.mp hu').2
      simpa using h2
    · show t ∈ db.userTags.filter (fun x => x.id ≠ s.id)
      exact List.mem_filter.mpr ⟨hmemt, by
        simp only [decide_eq_true_eq]
        exact Ne.symm hstid⟩
    · intro et het
      have het' : et ∈ mergeLoop t.id db.expenseTags
          (db.expenseTags.filter (fun et => et.user_tag_id == s.id)) := het
      exact hA et het'
    · intro E
      have hiff : (∃ et ∈ db.expenseTags.filter
            (fun et => et.user_tag_id == s.id), et.expense_id = E)
          ↔ 0 < pairCount db.expenseTags E s.id := by
        constructor
        · rintro ⟨et, het, hE⟩
          obtain ⟨hmem, hid⟩ := List.mem_filter.mp het
          have hid' : et.user_tag_id = s.id := by simpa using hid
          exact List.countP_pos_iff.mpr ⟨et, hmem, by simp [hE, hid']⟩
        · intro h
          obtain ⟨et, hmem, hp⟩ := List.countP_pos_iff.mp h
          simp only [Bool.and_eq_true, beq_iff_eq] at hp
          exact ⟨et, List.mem_filter.mpr ⟨hmem, by simp [hp.2]⟩, hp.1⟩
      exact (hB E).trans (if_congr (or_congr Iff.rfl hiff) rfl rfl)
    · intro et hets hett
      show et ∈ mergeLoop t.id db.expenseTags
          (db.expenseTags.filter (fun et => et.user_tag_id == s.id))
        ↔ et ∈ db.expenseTags
      exact hC et hets hett

theorem countP_singleton_le_one {α : Type} (p : α → Bool) (a : α) :
    List.countP p [a] ≤ 1 := by
  have h := List.countP_cons p a []
  rw [List.countP_nil] at h
  rw [h]
  by_cases hp : p a = true
  · simp [hp]
  · simp [hp]

/-- **C2**.  Concrete divergence trace of the update-path tag sync: in
`c2Db` the mileage log (id 10) and its mirror expense (id 11) both carry
tag 3, so they start in sync; updating the log's tags to `["client"]`
(tag id 5) succeeds, after which the log carries tag 5 while the mirror
expense still carries the stale tag 3 — the mirror's tags no longer
reflect the updated log, refuting the update clause of the sync
invariant on the faithful model of `update_mileage_log`. -/
theorem mileage_update_stale_tags :
    c2Db.mileageTagIds 10 = [3] ∧
    c2Db.expenseTagIds 11 = [3] ∧
    updateMileageLog c2Db 7 10 c2Upd = .ok c2DbAfter ∧
    c2DbAfter.mileageTagIds 10 = [5] ∧
    c2DbAfter.expenseTagIds 11 = [3] ∧
    (∃ l ∈ c2DbAfter.mileageLogs, l.id = 10 ∧
      l.linked_expense_id = some 11) ∧
    c2DbAfter.expenseTagIds 11 ≠ c2DbAfter.mileageTagIds 10 := by
  have h4 : c2DbAfter.mileageTagIds 10 = [5] := by
    with_unfolding_all rfl
  have h5 : c2DbAfter.expenseTagIds 11 = [3] := by
    with_unfolding_all rfl
  have hlogs : c2DbAfter.mileageLogs
      = [⟨10, 7, 4, ⟨2026, 1, 5, 0, 0, 0⟩, "client visit",
          100, 150, 0, 67 / 100, some 11⟩] := by
    with_unfolding_all rfl
  refine ⟨rfl, rfl, rfl, h4, h5, ?_, ?_⟩
  · rw [hlogs]
    exact ⟨_, List.mem_cons_self _ _, rfl, rfl⟩
  · rw [h4, h5]
    decide

/-- **C5**, witness: deleting the tag "food" from the concrete database
`c5DbOk` (which has no recurring or mileage junction rows) succeeds,
yields exactly `c5DbOk'`, and the deletion theorem's conclusions hold
there. -/
theorem delete_tag_removes_junctions_witness :
    deleteTag c5DbOk 7 "food" = .ok c5DbOk' ∧
    (∃ ut ∈ c5DbOk.userTags, ut.user_id = 7 ∧ ut.name = "food" ∧
      (∀ t ∈ c5DbOk'.userTags, t.id ≠ ut.id) ∧
      (∀ et ∈ c5DbOk'.expenseTags, et.user_tag_id ≠ ut.id) ∧
      (∀ rt ∈ c5DbOk'.recurringExpenseTags, rt.user_tag_id ≠ ut.id) ∧
      (∀ mt ∈ c5DbOk'.mileageLogTags, mt.user_tag_id ≠ ut.id) ∧
      (∀ eid, ut.id ∉ c5DbOk'.expenseTagIds eid) ∧
      (∀ rid, ut.id ∉ c5DbOk'.recurringTagIds rid) ∧
      (∀ lid, ut.id ∉ c5DbOk'.mileageTagIds lid)) :=
  ⟨rfl, (delete_tag_removes_junctions c5DbOk 7 "food").1 c5DbOk' rfl⟩

/-- **C5**, counterexample to the claim as stated: in `c5Db` the tag
"food" (id 3) exists for user 7 and is carried by a recurring template
and a mileage log, and deleting it returns HTTP 500 rather than
succeeding — so a tag carried by a recurring template or mileage log is
never deleted, contradicting the claimed three-table cleanup. -/
theorem delete_tag_cascade_counterexample :
    c5Db.userTags.find? (fun t => t.user_id == 7 && t.name == "food")
      = some ⟨3, 7, "food"⟩ ∧
    (⟨12, 30, 3⟩ : RecurringExpenseTagRow) ∈ c5Db.recurringExpenseTags ∧
    (⟨13, 40, 3⟩ : MileageLogTag) ∈ c5Db.mileageLogTags ∧
    deleteTag c5Db 7 "food" = .error 500 :=
  ⟨rfl, by decide, by decide, rfl⟩

/-- **C6**, witness: creating an expense in the concrete database `c6Db`
with tags `["food", " new ", "   "]`, with both hypotheses discharged by
computation. -/
theorem create_expense_tags_witness :
    c6Db.Fresh ∧
    createExpense c6Db 7 c6Inp c6Now = (c6Out.1, c6Out.2) ∧
    ((∃ e ∈ c6Out.1.expenses, e.id = c6Out.2 ∧ e.user_id = 7 ∧
      e.description = .plain c6Inp.description ∧
      e.recipient = c6Inp.recipient ∧ e.amount = c6Inp.amount ∧
      e.date = c6Inp.date.getD c6Now) ∧
    (∀ raw ∈ c6Inp.tags, raw.trim ≠ "" →
      ∃ ut ∈ c6Out.1.userTags, ut.user_id = 7 ∧ ut.name = raw.trim ∧
        ut.id ∈ c6Out.1.expenseTagIds c6Out.2) ∧
    (∀ utid ∈ c6Out.1.expenseTagIds c6Out.2,
      ∃ ut ∈ c6Out.1.userTags, ut.id = utid ∧ ut.user_id = 7 ∧
        ∃ raw ∈ c6Inp.tags, raw.trim ≠ "" ∧ ut.name = raw.trim) ∧
    (∀ n, c6Out.1.tagNameCount 7 n =
      if n ∈ c6Inp.tags.filterMap (fun raw =>
          if raw.trim = "" then none else some raw.trim)
      then max (c6Db.tagNameCount 7 n) 1 else c6Db.tagNameCount 7 n)) :=
  ⟨by decide, rfl,
    create_expense_tags_correct c6Db 7 c6Inp c6Now c6Out.1 c6Out.2
      (by decide) rfl⟩

/-- **C9**, witness: merging "food" (id 3) into "groceries" (id 4) in the
concrete database `c9Db` yields exactly `c9Db'`, with every hypothesis of
the merge theorem discharged on that input. -/
theorem merge_tags_witness :
    mergeTags c9Db 7 "food" "groceries" = .ok c9Db' ∧
    ((∀ u ∈ c9Db'.userTags, u.id ≠ 3) ∧
    (⟨4, 7, "groceries"⟩ : UserTag) ∈ c9Db'.userTags ∧
    (∀ et ∈ c9Db'.expenseTags, et.user_tag_id ≠ 3) ∧
    (∀ E, pairCount c9Db'.expenseTags E 4
      = if 0 < pairCount c9Db.expenseTags E 4
          ∨ 0 < pairCount c9Db.expenseTags E 3
        then 1 else 0) ∧
    (∀ et : ExpenseTag, et.user_tag_id ≠ 3 → et.user_tag_id ≠ 4 →
      (et ∈ c9Db'.expenseTags ↔ et ∈ c9Db.expenseTags)) ∧
    c9Db'.recurringExpenseTags = c9Db.recurringExpenseTags ∧
    c9Db'.mileageLogTags = c9Db.mileageLogTags) :=
  ⟨rfl, merge_tags_correct c9Db 7 "food" "groceries" ⟨3, 7, "food"⟩
    ⟨4, 7, "groceries"⟩ c9Db' (by decide) (by decide)
    (fun E u => countP_singleton_le_one
      (fun x : ExpenseTag => x.expense_id == E && x.user_tag_id == u)
      (⟨10, 20, 3⟩ : ExpenseTag))
    rfl rfl rfl⟩

/-- **C10**, witness: the rate-lookup theorem instantiated on the
concrete database `c10Db` (rates for 2024 and 2025) at year 2025, with
the year-uniqueness hypothesis discharged by computation. -/
theorem irs_rate_lookup_witness :
    c10Db.irsRates.Pairwise (fun a b => a.year ≠ b.year) ∧
    (((∀ r ∈ c10Db.irsRates, r.year ≠ 2025) →
      getCurrentIrsRate c10Db 2025 = 67 / 100) ∧
    (∀ r ∈ c10Db.irsRates, r.year = 2025 →
      getCurrentIrsRate c10Db 2025 = r.rate) ∧
    (∀ (uid : ℕ) (inp : MileageLogCreate) (db' : DB) (lid : ℕ),
      c10Db.Fresh → createMileageLog c10Db uid inp = .ok (db', lid) →
      ∃ l ∈ db'.mileageLogs, l.id = lid ∧
        l.irs_rate = getCurrentIrsRate c10Db inp.date.year)) :=
  ⟨by decide, irs_rate_lookup_total c10Db 2025 (by decide)⟩

end Expenses
